import Mathlib

/-!
# roadrunner-temporal: the worker bridge, embedded

A shallow embedding of the workflow commands and their parser
(`plugins/workflow/message.go`), of the activity execution bridge and the
lifecycle of its pool (`activity/activity_pool.go`, `activity/plugin.go`) and
of the sequence counter, the reset, the stop and the control loop of the root
plugin (`plugin.go`).

Conventions of the embedding.

* A Go pointer that may be nil is an `Option`; a call that dereferences a nil
  pointer ends in `Go.panic`.
* A Go `error` result is an `Option GoError` (`none` is the nil error).
* `uint64` is a `Nat` reduced modulo `2 ^ 64` at every increment; `int64` is
  an `Int` wrapped into its range after every product.
* Collaborators that live outside the repository (the JSON decoder, the
  codec, the worker pool, the orchestrator SDK) are fields of explicit
  records of functions, so every theorem holds for every behaviour of them.
* `errors.E` of the errors library is embedded with its loop over the
  arguments, because the error it returns depends on their types and order.
-/

namespace RoadrunnerTemporal

/-- A Go byte slice. -/
abbrev Bytes := List UInt8

/-- Type `json.RawMessage`: undecoded JSON text. -/
abbrev RawMessage := Bytes

/-- Type `commonpb.Payload`: one value in the orchestrator's native encoding. -/
structure Payload where
  Metadata : List (String × Bytes)
  Data : Bytes
deriving DecidableEq, Repr

/-- Type `commonpb.Payloads`: the pointee of a `*commonpb.Payloads`. -/
structure Payloads where
  Payloads : List Payload
deriving DecidableEq, Repr

/-- Go `error` values built or passed on by the embedded code. -/
inductive GoError where
  /-- Value `errors.Str(text)`. -/
  | Str (text : String)
  /-- An error value handed back by a collaborator outside the repository. -/
  | foreign (tag : String)
  /-- Value `activity.ErrResultPending`. -/
  | ErrResultPending
  /-- Value `&errors.Error{Op: op, Err: err}`, which `errors.E(errors.Op(op), err)`
  returns. -/
  | E (op : String) (err : GoError)
  /-- Value `&errors.Error{Op: op}`, whose `Err` is nil. -/
  | Eop (op : String)
  /-- Value `fmt.Errorf("unknown type %T, value %v in error call", arg, arg)`,
  with the two formattings of `arg`. -/
  | unknownType (type : String) (value : String)
  /-- Value `errors.Errorf(format, err, text)`. -/
  | Errorf (format : String) (err : GoError) (text : String)
  /-- Value `errors.Disabled`, the kind of a plugin that is switched off. -/
  | Disabled
deriving DecidableEq, Repr

/-! ## The `errors` library -/

namespace errors

/-- One argument of a call of `errors.E`, by its dynamic type: an `errors.Op`,
a `string`, or an `error` interface value, which is `none` when it is nil. -/
inductive Arg where
  | Op (op : String)
  | string (text : String)
  | error (err : Option GoError)
deriving DecidableEq, Repr

/-- The loop of `errors.E` over its arguments, with the fields `Op` and `Err`
of the `Error` it builds: an `Op` is stored in `e.Op`, a string as
`e.Err = Str(arg)`, an error as `e.Err = arg`, each in place of what an earlier
argument stored there. A nil argument matches no case of the type switch, and
the call returns the "unknown type" error at once. -/
def E.loop : List Arg → String → Option GoError → GoError
  | [], op, some err => .E op err
  | [], op, none => .Eop op
  | .Op op :: rest, _, err => E.loop rest op err
  | .string text :: rest, op, _ => E.loop rest op (some (.Str text))
  | .error (some err) :: rest, op, _ => E.loop rest op (some err)
  | .error none :: _, _, _ => .unknownType "<nil>" "<nil>"

/-- Function `E` of the errors library, which is outside the repository, on a
call with at least one argument. -/
def E (first : Arg) (rest : List Arg) : GoError :=
  E.loop (first :: rest) "" none

end errors

/-- How the body of a Go function ends: it returns, or the goroutine panics. -/
inductive Go (α : Type) where
  | ret (a : α)
  | panic (reason : String)
deriving DecidableEq, Repr

/-- The runtime error raised by a field access through a nil pointer. -/
def nilDereference : String := "invalid memory address or nil pointer dereference"

/-- Interface `converter.DataConverter`: owned by the orchestrator SDK; the
embedded code only passes the value on. -/
structure DataConverter where
  ident : Nat
deriving DecidableEq, Repr

/-! ## `plugins/workflow/message.go` -/

namespace workflow

def StartWorkflowCommand : String := "StartWorkflow"

def ExecuteActivityCommand : String := "ExecuteActivity"

def NewTimerCommand : String := "NewTimer"

def CompleteWorkflowCommand : String := "CompleteWorkflow"

/-- Type `workflow.ActivityOptions` of the SDK (durations in nanoseconds). -/
structure ActivityOptions where
  TaskQueue : String
  ScheduleToCloseTimeout : Int
  ScheduleToStartTimeout : Int
  StartToCloseTimeout : Int
  HeartbeatTimeout : Int
  WaitForCancellation : Bool
  ActivityID : String
deriving DecidableEq, Repr

/-- ExecuteActivity command by workflow worker. `ArgsPayload` is a
`*commonpb.Payloads`: `none` is the nil pointer. -/
structure ExecuteActivity where
  Name : String
  Args : List RawMessage
  Options : ActivityOptions
  ArgsPayload : Option Payloads
deriving DecidableEq, Repr

/-- NewTimer starts new timer. -/
structure NewTimer where
  Milliseconds : Int
deriving DecidableEq, Repr

/-- CompleteWorkflow sent by worker to complete workflow. `ResultPayload` is a
`*commonpb.Payloads`: `none` is the nil pointer. -/
structure CompleteWorkflow where
  Result : List RawMessage
  ResultPayload : Option Payloads
deriving DecidableEq, Repr

/-- The dynamic type of the `interface{}` that `parseCommand` returns. -/
inductive Command where
  | ExecuteActivity (cmd : ExecuteActivity)
  | NewTimer (cmd : NewTimer)
  | CompleteWorkflow (cmd : CompleteWorkflow)
deriving DecidableEq, Repr

/-- What `parseCommand` returns: `(cmd, nil)` or `(nil, err)`. -/
inductive Parsed where
  | command (cmd : Command)
  | error (err : GoError)
deriving DecidableEq, Repr

/-- Function `json.Unmarshal(params, &cmd)` on a zero-valued `cmd` of each of
the three command types: the decoded command, or the decoder's error. -/
structure JsonDecoder where
  ExecuteActivity : RawMessage → ExecuteActivity ⊕ GoError
  NewTimer : RawMessage → NewTimer ⊕ GoError
  CompleteWorkflow : RawMessage → CompleteWorkflow ⊕ GoError

/-- Function `rrt.ToPayload(dc, values, result)`, whose third argument is a
`*commonpb.Payloads` passed by value. Called with the nil pointer it can
return an error, return nil, or panic, and has no pointee to write to; called
with a pointer to `p` it may also leave a new pointee behind. -/
structure ToPayloadImpl where
  atNil : DataConverter → List RawMessage → Go (Option GoError)
  atPointer : DataConverter → List RawMessage → Payloads → Go (Option GoError × Payloads)

/-- The call `rrt.ToPayload(dc, values, ptr)`: the returned error and the
state of the caller's pointer afterwards. The callee received a copy of the
pointer, so a nil pointer is still nil after the call. -/
def ToPayload (impl : ToPayloadImpl) (dc : DataConverter) (values : List RawMessage)
    (ptr : Option Payloads) : Go (Option GoError × Option Payloads) :=
  match ptr with
  | none =>
    match impl.atNil dc values with
    | .panic r => .panic r
    | .ret err => .ret (err, none)
  | some p =>
    match impl.atPointer dc values p with
    | .panic r => .panic r
    | .ret (err, q) => .ret (err, some q)

/-- Function `parseCommand`: maps worker parameters into internal command
representation. -/
def parseCommand (json : JsonDecoder) (impl : ToPayloadImpl) (dc : DataConverter)
    (name : String) (params : RawMessage) : Go Parsed :=
  if name = ExecuteActivityCommand then
    match json.ExecuteActivity params with
    | .inr err => .ret (.error err)
    | .inl cmd =>
      match ToPayload impl dc cmd.Args cmd.ArgsPayload with
      | .panic r => .panic r
      | .ret (some err, _) => .ret (.error err)
      | .ret (none, ptr) => .ret (.command (.ExecuteActivity { cmd with ArgsPayload := ptr }))
  else if name = NewTimerCommand then
    match json.NewTimer params with
    | .inr err => .ret (.error err)
    | .inl cmd => .ret (.command (.NewTimer cmd))
  else if name = CompleteWorkflowCommand then
    match json.CompleteWorkflow params with
    | .inr err => .ret (.error err)
    | .inl cmd =>
      match ToPayload impl dc cmd.Result cmd.ResultPayload with
      | .panic r => .panic r
      | .ret (some err, _) => .ret (.error err)
      | .ret (none, ptr) => .ret (.command (.CompleteWorkflow { cmd with ResultPayload := ptr }))
  else
    .ret (.error (errors.E (.Op "parseCommand")
      [.string "undefined command type", .error (some (.Str name))]))

/-- The value an `int64` holds after an arithmetic result `x`: `x` reduced
modulo `2 ^ 64` into the range from `-2 ^ 63` to `2 ^ 63 - 1`. -/
def wrapInt64 (x : Int) : Int := (x + 2 ^ 63) % 2 ^ 64 - 2 ^ 63

/-- Constant `time.Millisecond`: a `time.Duration` counts nanoseconds. -/
def Millisecond : Int := 1000000

/-- Method `ToDuration` converts timer command to time.Duration:
`time.Millisecond * time.Duration(t.Milliseconds)`, an `int64` product
(`int` is 64 bits wide). -/
def NewTimer.ToDuration (t : NewTimer) : Int :=
  wrapInt64 (Millisecond * wrapInt64 t.Milliseconds)

/-- Method `Milliseconds` of `time.Duration`: the duration as whole
milliseconds, `int64(d) / 1e6`, which truncates toward zero. -/
def Duration.Milliseconds (d : Int) : Int := Int.tdiv d 1000000

/-- StartWorkflow sends worker command to start workflow. -/
structure StartWorkflow where
  Name : String
  Wid : String
  Rid : String
  TaskQueue : String
  Input : List RawMessage
deriving DecidableEq, Repr

/-- Type `WorkflowType` of the SDK. -/
structure WorkflowType where
  Name : String
deriving DecidableEq, Repr

/-- Type `WorkflowExecution` of the SDK. -/
structure WorkflowExecution where
  ID : String
  RunID : String
deriving DecidableEq, Repr

/-- The fields of the SDK's `WorkflowInfo` that `FromEnvironment` reads. -/
structure Info where
  WorkflowExecution : WorkflowExecution
  WorkflowType : WorkflowType
  TaskQueueName : String
deriving DecidableEq, Repr

/-- Interface `internalbindings.WorkflowEnvironment`, as `FromEnvironment` uses
it: `WorkflowInfo()` (the SDK hands out the info of the running workflow) and
`GetDataConverter()`. -/
structure WorkflowEnvironment where
  WorkflowInfo : Info
  GetDataConverter : DataConverter
deriving DecidableEq, Repr

/-- Function `rrt.FromPayload(dc, payloads, values)`, whose third argument is a
`*[]json.RawMessage`: given the converter, the payloads pointer and the slice
behind `values`, the error it returns and the slice it leaves behind `values`,
or a panic. -/
structure FromPayloadImpl where
  run : DataConverter → Option Payloads → List RawMessage → Go (Option GoError × List RawMessage)

/-- Method `FromEnvironment` maps start command from environment: how the call
ends and the command afterwards. -/
def StartWorkflow.FromEnvironment (impl : FromPayloadImpl) (start : StartWorkflow)
    (env : WorkflowEnvironment) (input : Option Payloads) : Go (Option GoError) × StartWorkflow :=
  let info := env.WorkflowInfo
  let start₁ : StartWorkflow :=
    { start with
        Name := info.WorkflowType.Name
        Wid := info.WorkflowExecution.ID
        Rid := info.WorkflowExecution.RunID
        TaskQueue := info.TaskQueueName }
  match impl.run env.GetDataConverter input start₁.Input with
  | .panic r => (.panic r, start₁)
  | .ret (err, values) => (.ret err, { start₁ with Input := values })

end workflow

/-! ## Collaborators shared by the activity bridge and the root plugin -/

/-- Interface `rrt.Codec`; `name` is what `GetName()` returns. -/
structure Codec where
  name : String
deriving DecidableEq, Repr

/-- Interface `pool.Pool`: a handle on one pool of worker processes. -/
structure WorkerPool where
  ident : Nat
deriving DecidableEq, Repr

/-- Interface `worker.Worker` of the SDK: one orchestrator-side worker handle. -/
structure Worker where
  ident : Nat
deriving DecidableEq, Repr

/-- Type `worker.Options` of the SDK (durations in nanoseconds). -/
structure WorkerOptions where
  MaxConcurrentActivityExecutionSize : Int
  WorkerStopTimeout : Int
deriving DecidableEq, Repr

/-- One advertised activity of the worker catalogue. -/
structure ActivityInfo where
  Name : String
deriving DecidableEq, Repr

/-- One advertised workflow of the worker catalogue. -/
structure WorkflowInfo where
  Name : String
deriving DecidableEq, Repr

/-- Type `WorkerInfo`: one task-queue entry of the catalogue. -/
structure WorkerInfo where
  TaskQueue : String
  Options : WorkerOptions
  Workflows : List WorkflowInfo
  Activities : List ActivityInfo
deriving DecidableEq, Repr

/-- The calls the embedded code makes on its collaborators, in program order
(oldest first). A collaborator's answer may depend on everything that
happened before the call. -/
inductive Event where
  | NewWorkerPool (env : List (String × String))
  | FetchWorkerInfo (wp : WorkerPool)
  | CreateWorker (taskQueue : String) (options : WorkerOptions)
  | RegisterActivity (w : Worker) (name : String)
  | WorkerStart (w : Worker)
  | WorkerStop (w : Worker)
  | PoolDestroy (wp : WorkerPool)
  | PoolReset (wp : WorkerPool)
  | PurgeStickyWorkflowCache
  | GetWorkerInfo (wp : WorkerPool)
  | InitWorkers (wi : List WorkerInfo)
  | LogDebug (msg : String)
  | LogInfo (msg : String)
  | LogError (msg : String) (err : GoError)
  | Unsubscribe
  | StopSignal
  | TallyClose
  | ClientClose
  | EventsPush
deriving DecidableEq, Repr

/-- The log of collaborator calls so far. -/
abbrev Trace := List Event

/-- How one pass through the body of a control loop ends: the loop takes the
next request, or the goroutine returns. -/
inductive Loop where
  | next
  | exit
deriving DecidableEq, Repr

/-- Constant `time.Second`, in nanoseconds. -/
def Second : Int := 1000000000

/-! ## `activity/activity_pool.go` -/

namespace activity

def RR_MODE : String := "RR_MODE"

def RR_CODEC : String := "RR_CODEC"

def doNotCompleteOnReturn : String := "doNotCompleteOnReturn"

/-- Type `activity.Type` of the SDK. -/
structure ActivityType where
  Name : String
deriving DecidableEq, Repr

/-- Type `activity.WorkflowExecution` of the SDK. -/
structure WorkflowExecution where
  ID : String
  RunID : String
deriving DecidableEq, Repr

/-- Type `activity.Info` of the SDK: the metadata of one activity invocation. -/
structure Info where
  TaskToken : Bytes
  WorkflowExecution : WorkflowExecution
  ActivityID : String
  ActivityType : ActivityType
  TaskQueue : String
  Attempt : Int
deriving DecidableEq, Repr

/-- Type `failure.Failure`: the failure descriptor of a worker reply. -/
structure Failure where
  Message : String
  Source : String
  StackTrace : String
deriving DecidableEq, Repr

/-- The `context.Context` of one activity task, as the SDK accessors used by
`executeActivity` see it: `activity.HasHeartbeatDetails(ctx)`, the outcome of
`activity.GetHeartbeatDetails(ctx, &heartbeatDetails)` (the payloads the
pointer refers to afterwards, or the error) and `activity.GetInfo(ctx)`. -/
structure Context where
  ident : Nat
  HasHeartbeatDetails : Bool
  GetHeartbeatDetails : Payloads ⊕ GoError
  GetInfo : Info
deriving DecidableEq, Repr

/-- Command `rrt.InvokeActivity`. -/
structure InvokeActivity where
  Name : String
  Info : Info
  HeartbeatDetails : Nat
deriving DecidableEq, Repr

/-- Type `rrt.Message`. `Command` is an interface value, `Failure` and
`Payloads` are pointers: `none` is nil. -/
structure Message where
  ID : Nat
  Command : Option InvokeActivity
  Failure : Option Failure
  Payloads : Option Payloads
deriving DecidableEq, Repr

/-- Type `rrt.Context`. -/
structure rrtContext where
  TaskQueue : String
deriving DecidableEq, Repr

/-- Type `sync.Map` with string keys: at most one entry per key. -/
structure SyncMap (V : Type) where
  entries : List (Bytes × V)
deriving DecidableEq, Repr

namespace SyncMap

/-- Method `Load`: the value stored under `key`, if any. -/
def Load {V : Type} (m : SyncMap V) (key : Bytes) : Option V :=
  match m.entries.find? (fun e => decide (e.1 = key)) with
  | some e => some e.2
  | none => none

/-- Method `Delete`: removes the entry of `key`. -/
def Delete {V : Type} (m : SyncMap V) (key : Bytes) : SyncMap V :=
  ⟨m.entries.filter (fun e => decide (e.1 ≠ key))⟩

/-- Method `Store`: sets the value of `key`, replacing an older one. -/
def Store {V : Type} (m : SyncMap V) (key : Bytes) (value : V) : SyncMap V :=
  ⟨(key, value) :: (m.Delete key).entries⟩

end SyncMap

/-- Modelled from the spec: utils.ToString, the helper (not under src) that
turns a task token into the key of the in-flight map; the spec keys the map
by the task token, "an opaque byte string", so the key is the token's bytes. -/
def ToString (taskToken : Bytes) : Bytes := taskToken

/-- Type `activityPoolImpl`. `dc` is an interface value (nil until `Start`),
`seqID` a `uint64`, `graceTimeout` a `time.Duration`. -/
structure activityPoolImpl where
  dc : Option DataConverter
  codec : Codec
  seqID : Nat
  activities : List String
  wp : WorkerPool
  tWorkers : List Worker
  running : SyncMap Context
  graceTimeout : Int
deriving DecidableEq, Repr

/-- What answers the bridge during one exchange: `codec.Execute(wp, ctx, msg)`,
which runs while the bridge is in state `during` (the worker may heartbeat
back into the bridge before it replies), and
`internalbindings.ConvertFailureToError`. -/
structure Exchange where
  Execute : (during : activityPoolImpl) → Codec → WorkerPool → rrtContext → Message →
    List Message ⊕ GoError
  ConvertFailureToError : Failure → Option DataConverter → GoError

/-- Method `ActivityNames` returns list of all available activity names. -/
def activityPoolImpl.ActivityNames (pool : activityPoolImpl) : List String :=
  pool.activities

/-- Method `GetActivityContext`: the `(context, error)` pair it returns and the
pool afterwards. -/
def activityPoolImpl.GetActivityContext (pool : activityPoolImpl) (taskToken : Bytes) :
    (Option Context × Option GoError) × activityPoolImpl :=
  match pool.running.Load (ToString taskToken) with
  | none =>
    ((none, some (.E "activity_pool_get_activity_context"
      (.Str "heartbeat on non running activity"))), pool)
  | some c => ((some c, none), pool)

/-- Lines 166-172 of `executeActivity`: the payloads `heartbeatDetails` points
to once the details have been fetched, or the error of the fetch. -/
def executeActivity.heartbeatDetails (ctx : Context) : Payloads ⊕ GoError :=
  if ctx.HasHeartbeatDetails then ctx.GetHeartbeatDetails else .inl ⟨[]⟩

/-- How the part of `executeActivity` before `codec.Execute` ends. -/
inductive Prepared where
  /-- It returned `(nil, err)` without dispatching. -/
  | returned (err : GoError)
  /-- It panicked without dispatching. -/
  | panicked (reason : String)
  /-- It reached `codec.Execute` with this message. -/
  | dispatch (msg : Message)
deriving DecidableEq, Repr

/-- Lines 166-190 of `executeActivity`: everything up to the call of
`codec.Execute`, with the pool as it is at that point. -/
def executeActivity.prepare (pool : activityPoolImpl) (ctx : Context) (args : Option Payloads) :
    Prepared × activityPoolImpl :=
  match executeActivity.heartbeatDetails ctx with
  | .inr err => (.returned (.E "activity_pool_execute_activity" err), pool)
  | .inl heartbeatDetails =>
    let info := ctx.GetInfo
    let id := (pool.seqID + 1) % 2 ^ 64
    let pool₁ := { pool with seqID := id }
    let msg : Message :=
      { ID := id
        Command := some
          { Name := info.ActivityType.Name
            Info := info
            HeartbeatDetails := heartbeatDetails.Payloads.length }
        Failure := none
        Payloads := args }
    let pool₂ := { pool₁ with running := pool₁.running.Store (ToString info.TaskToken) ctx }
    if heartbeatDetails.Payloads.length ≠ 0 then
      match msg.Payloads with
      | none => (.panicked nilDereference, pool₁)
      | some payloads =>
        (.dispatch { msg with Payloads := some ⟨payloads.Payloads ++ heartbeatDetails.Payloads⟩ },
          pool₂)
    else
      (.dispatch msg, pool₂)

/-- Lines 193-210 of `executeActivity`: what is returned for an outcome of
`codec.Execute`. -/
def executeActivity.interpret (x : Exchange) (pool : activityPoolImpl)
    (outcome : List Message ⊕ GoError) : Option Payloads × Option GoError :=
  match outcome with
  | .inr err => (none, some (.E "activity_pool_execute_activity" err))
  | .inl result =>
    if h : result.length ≠ 1 then
      (none, some (.E "activity_pool_execute_activity" (.Str "invalid activity worker response")))
    else
      let out := result.get ⟨0, by omega⟩
      match out.Failure with
      | some failure =>
        if failure.Message = doNotCompleteOnReturn then
          (none, some .ErrResultPending)
        else
          (none, some (x.ConvertFailureToError failure pool.dc))
      | none => (out.Payloads, none)

/-- Method `executeActivity`: executes activity with underlying worker. The
result is how the call ends and the pool afterwards; the deferred
`running.Delete` runs when the call returns. -/
def activityPoolImpl.executeActivity (x : Exchange) (pool : activityPoolImpl) (ctx : Context)
    (args : Option Payloads) : Go (Option Payloads × Option GoError) × activityPoolImpl :=
  match executeActivity.prepare pool ctx args with
  | (.returned err, pool₁) => (.ret (none, some err), pool₁)
  | (.panicked reason, pool₁) => (.panic reason, pool₁)
  | (.dispatch msg, during) =>
    let outcome := x.Execute during during.codec during.wp ⟨ctx.GetInfo.TaskQueue⟩ msg
    (.ret (executeActivity.interpret x during outcome),
      { during with running := during.running.Delete (ToString ctx.GetInfo.TaskToken) })

/-- A sequence of calls of `executeActivity` on one pool, one after the other
(a panic is recovered by the SDK, the pool lives on): the ids of the messages
that reached `codec.Execute`, in the order of issue, and the pool at the end. -/
def activityPoolImpl.dispatched (x : Exchange) :
    activityPoolImpl → List (Context × Option Payloads) → List Nat × activityPoolImpl
  | pool, [] => ([], pool)
  | pool, call :: rest =>
    match activityPoolImpl.dispatched x (pool.executeActivity x call.1 call.2).2 rest with
    | (ids, final) =>
      match (executeActivity.prepare pool call.1 call.2).1 with
      | .dispatch msg => (msg.ID :: ids, final)
      | _ => (ids, final)

/-! ## `activity/plugin.go`: pool generations -/

/-- What the activity plugin reaches through `p.temporal` and `p.server`. The
functions that start processes or talk to them answer from the trace so far. -/
structure Temporal where
  GetDataConverter : DataConverter
  GetCodec : Codec
  RRMode : String
  NewWorkerPool : Trace → List (String × String) → WorkerPool ⊕ GoError
  FetchWorkerInfo : Trace → Codec → WorkerPool → DataConverter → List WorkerInfo ⊕ GoError
  CreateWorker : Trace → String → WorkerOptions → Worker ⊕ GoError
  WorkerStart : Trace → Worker → Option GoError

/-- Function `newActivityPool`. -/
def newActivityPool (t : Temporal) (codec : Codec) (trace : Trace) :
    (activityPoolImpl ⊕ GoError) × Trace :=
  let env := [(RR_MODE, t.RRMode), (RR_CODEC, codec.name)]
  match t.NewWorkerPool trace env with
  | .inr err => (.inr (.E "new_activity_pool" err), trace ++ [.NewWorkerPool env])
  | .inl wp =>
    (.inl
      { dc := none
        codec := codec
        seqID := 0
        activities := []
        wp := wp
        tWorkers := []
        running := ⟨[]⟩
        graceTimeout := 0 },
     trace ++ [.NewWorkerPool env])

/-- Method `Destroy`: stops every worker handle, then destroys the pool. -/
def activityPoolImpl.Destroy (pool : activityPoolImpl) (trace : Trace) : Option GoError × Trace :=
  (none, trace ++ pool.tWorkers.map Event.WorkerStop ++ [.PoolDestroy pool.wp])

/-- The inner loop of `initWorkers` (index `j`). -/
def initWorkers.register (w : Worker) :
    List ActivityInfo → activityPoolImpl → Trace → activityPoolImpl × Trace
  | [], pool, trace => (pool, trace)
  | a :: rest, pool, trace =>
    initWorkers.register w rest { pool with activities := pool.activities ++ [a.Name] }
      (trace ++ [.RegisterActivity w a.Name])

/-- The outer loop of `initWorkers` (index `i`). -/
def initWorkers.loop (t : Temporal) :
    List WorkerInfo → activityPoolImpl → Trace → Option GoError × activityPoolImpl × Trace
  | [], pool, trace => (none, pool, trace)
  | wi :: rest, pool, trace =>
    let options := { wi.Options with WorkerStopTimeout := pool.graceTimeout }
    let trace₁ := trace ++ [.CreateWorker wi.TaskQueue options]
    match t.CreateWorker trace wi.TaskQueue options with
    | .inr err =>
      match pool.Destroy trace₁ with
      | (second, trace₂) =>
        (some (errors.E (.Op "activity_pool_create_temporal_worker")
          [.error (some err), .error second]), pool, trace₂)
    | .inl w =>
      match initWorkers.register w wi.Activities { pool with tWorkers := pool.tWorkers ++ [w] }
        trace₁ with
      | (pool₁, trace₂) => initWorkers.loop t rest pool₁ trace₂

/-- Method `initWorkers`: requests the catalogue and configures the workers. -/
def activityPoolImpl.initWorkers (t : Temporal) (pool : activityPoolImpl) (trace : Trace) :
    Option GoError × activityPoolImpl × Trace :=
  match t.FetchWorkerInfo trace pool.codec pool.wp t.GetDataConverter with
  | .inr err =>
    (some (.E "activity_pool_create_temporal_worker" err), pool, trace ++ [.FetchWorkerInfo pool.wp])
  | .inl workerInfo =>
    initWorkers.loop t workerInfo { pool with activities := [], tWorkers := [] }
      (trace ++ [.FetchWorkerInfo pool.wp])

/-- The loop of `Start` over `pool.tWorkers`. -/
def Start.loop (t : Temporal) : List Worker → Trace → Option GoError × Trace
  | [], trace => (none, trace)
  | w :: rest, trace =>
    match t.WorkerStart trace w with
    | some err => (some (.E "activity_pool_start" err), trace ++ [.WorkerStart w])
    | none => Start.loop t rest (trace ++ [.WorkerStart w])

/-- Method `Start`. -/
def activityPoolImpl.Start (t : Temporal) (pool : activityPoolImpl) (trace : Trace) :
    Option GoError × activityPoolImpl × Trace :=
  match activityPoolImpl.initWorkers t { pool with dc := some t.GetDataConverter } trace with
  | (some err, pool₁, trace₁) => (some (.E "activity_pool_start" err), pool₁, trace₁)
  | (none, pool₁, trace₁) =>
    match Start.loop t pool₁.tWorkers trace₁ with
    | (err, trace₂) => (err, pool₁, trace₂)

/-- Plugin to manage activity execution: `pool` (nil before `Serve` and after
`Stop`), `graceTimeout`, and the `closing` flag. -/
structure Plugin where
  pool : Option activityPoolImpl
  graceTimeout : Int
  closing : Int
deriving DecidableEq, Repr

/-- Method `startPool`. -/
def Plugin.startPool (t : Temporal) (_p : Plugin) (trace : Trace) :
    (activityPoolImpl ⊕ GoError) × Trace :=
  match newActivityPool t t.GetCodec trace with
  | (.inr err, trace₁) => (.inr (.E "newActivityPool" err), trace₁)
  | (.inl pool, trace₁) =>
    match pool.Start t trace₁ with
    | (some err, _, trace₂) => (.inr (.E "startActivityPool" err), trace₂)
    | (none, pool₁, trace₂) => (.inl pool₁, trace₂ ++ [.LogDebug "Started activity processing"])

/-- Method `replacePool`: how the call ends, the plugin and the trace
afterwards. -/
def Plugin.replacePool (t : Temporal) (p : Plugin) (trace : Trace) :
    Go (Option GoError) × Plugin × Trace :=
  match p.startPool t trace with
  | (.inr err, trace₁) =>
    (.ret (some (.E "activity_plugin_replace_pool" err)), p,
      trace₁ ++ [.LogError "replace activity pool failed" err])
  | (.inl pool, trace₁) =>
    match p.pool with
    | none =>
      (.panic nilDereference, { p with pool := some pool },
        trace₁ ++ [.LogDebug "replace activity pool"])
    | some previous =>
      match previous.Destroy (trace₁ ++ [.LogDebug "replace activity pool"]) with
      | (some err, trace₂) =>
        (.ret none, { p with pool := some pool },
          trace₂ ++ [.LogError "Unable to destroy expired activity pool"
            (.E "activity_plugin_replace_pool" err)])
      | (none, trace₂) => (.ret none, { p with pool := some pool }, trace₂)

/-- Method `replacePool` with the `Destroy` of the previous pool left open:
`p.pool` is an `activityPool` interface value, and `destroy current previous
trace` is the call `previous.Destroy(ctx)`, made while the plugin is in state
`current`. -/
def Plugin.replacePoolWith (destroy : Plugin → activityPoolImpl → Trace → Option GoError × Trace)
    (t : Temporal) (p : Plugin) (trace : Trace) : Go (Option GoError) × Plugin × Trace :=
  match p.startPool t trace with
  | (.inr err, trace₁) =>
    (.ret (some (.E "activity_plugin_replace_pool" err)), p,
      trace₁ ++ [.LogError "replace activity pool failed" err])
  | (.inl pool, trace₁) =>
    match p.pool with
    | none =>
      (.panic nilDereference, { p with pool := some pool },
        trace₁ ++ [.LogDebug "replace activity pool"])
    | some previous =>
      match destroy { p with pool := some pool } previous
        (trace₁ ++ [.LogDebug "replace activity pool"]) with
      | (some err, trace₂) =>
        (.ret none, { p with pool := some pool },
          trace₂ ++ [.LogError "Unable to destroy expired activity pool"
            (.E "activity_plugin_replace_pool" err)])
      | (none, trace₂) => (.ret none, { p with pool := some pool }, trace₂)

/-- Method `Stop` stops the serving plugin: the error returned, the plugin and
the trace afterwards. -/
def Plugin.Stop (p : Plugin) (trace : Trace) : Option GoError × Plugin × Trace :=
  match p.pool with
  | some pool =>
    match pool.Destroy trace with
    | (some err, trace₁) =>
      (some (.E "activity_plugin_stop" err), { p with closing := 1, pool := none }, trace₁)
    | (none, trace₁) => (none, { p with closing := 1, pool := none }, trace₁)
  | none => (none, { p with closing := 1 }, trace)

/-- Type `backoff.ExponentialBackOff` of the retry library: its durations. -/
structure ExponentialBackOff where
  InitialInterval : Int
  MaxInterval : Int
  MaxElapsedTime : Int
deriving DecidableEq, Repr

/-- Package `backoff`, a library outside the repository:
`NewExponentialBackOff()` and `Retry(operation, b)`, where the operation acts
on the plugin and the trace. -/
structure Backoff where
  NewExponentialBackOff : ExponentialBackOff
  Retry : (Plugin → Trace → Go (Option GoError) × Plugin × Trace) → ExponentialBackOff →
    Plugin → Trace → Go (Option GoError) × Plugin × Trace

/-- One pass through the loop of `Serve` (lines 80-97) for a request taken from
`p.reset`: how the pass ends, the plugin, the trace and the errors sent to
`errCh` afterwards. -/
def Serve.iteration (t : Temporal) (b : Backoff) (p : Plugin) (trace : Trace)
    (errCh : List GoError) : Go Loop × Plugin × Trace × List GoError :=
  if p.closing = 1 then
    (.ret .exit, p, trace, errCh)
  else
    match p.replacePool t trace with
    | (.panic r, p₁, trace₁) => (.panic r, p₁, trace₁, errCh)
    | (.ret none, p₁, trace₁) => (.ret .next, p₁, trace₁, errCh)
    | (.ret (some _), p₁, trace₁) =>
      match b.Retry (Plugin.replacePool t)
        { b.NewExponentialBackOff with InitialInterval := Second } p₁ trace₁ with
      | (.panic r, p₂, trace₂) => (.panic r, p₂, trace₂, errCh)
      | (.ret (some err), p₂, trace₂) =>
        (.ret .next, p₂, trace₂, errCh ++ [.E "activity_plugin_serve" err])
      | (.ret none, p₂, trace₂) => (.ret .next, p₂, trace₂, errCh)

/-- Method `Stop` with the `Destroy` of the current pool left open: `destroy
current pool trace` is the call `pool.Destroy(ctx)`, made while the plugin is
in state `current`. -/
def Plugin.StopWith (destroy : Plugin → activityPoolImpl → Trace → Option GoError × Trace)
    (p : Plugin) (trace : Trace) : Option GoError × Plugin × Trace :=
  match p.pool with
  | some pool =>
    match destroy { p with closing := 1, pool := none } pool trace with
    | (some err, trace₁) =>
      (some (.E "activity_plugin_stop" err), { p with closing := 1, pool := none }, trace₁)
    | (none, trace₁) => (none, { p with closing := 1, pool := none }, trace₁)
  | none => (none, { p with closing := 1 }, trace)

/-- What `Init` reads of its arguments: `cfg.Has(RootPluginName)`, whether
`temporal.GetConfig().Activities` is set, and
`cfg.GetCommonConfig().GracefulTimeout`. -/
structure Configurer where
  HasRootPlugin : Bool
  HasActivities : Bool
  GracefulTimeout : Int
deriving DecidableEq, Repr

/-- Method `Init` configures activity service: the error returned and the
plugin afterwards. -/
def Plugin.Init (cfg : Configurer) (p : Plugin) : Option GoError × Plugin :=
  if !cfg.HasRootPlugin then
    (some (.E "activity_plugin_init" .Disabled), p)
  else if !cfg.HasActivities then
    (some (.E "activity_plugin_init" .Disabled), p)
  else
    (none, { p with graceTimeout := cfg.GracefulTimeout })

/-- Method `Serve` up to the start of its goroutine (lines 66-76): whether the
control loop was started, the plugin, the trace and the error channel. -/
def Plugin.Serve (t : Temporal) (p : Plugin) (trace : Trace) :
    Bool × Plugin × Trace × List GoError :=
  match p.startPool t trace with
  | (.inr err, trace₁) => (false, p, trace₁, [.E "activity_plugin_serve" err])
  | (.inl pool, trace₁) => (true, { p with pool := some pool }, trace₁, [])

/-- Interface `worker.BaseProcess`: one worker process of a pool. -/
structure BaseProcess where
  pid : Nat
deriving DecidableEq, Repr

/-- Method `Workers` returns list of all allocated workers; `workers wp` is
`wp.Workers()`. -/
def activityPoolImpl.Workers (workers : WorkerPool → List BaseProcess) (pool : activityPoolImpl) :
    List BaseProcess :=
  (workers pool.wp).foldl (fun base w => base ++ [w]) []

/-- Method `Workers` returns pool workers; the nil slice is the empty list. -/
def Plugin.Workers (workers : WorkerPool → List BaseProcess) (p : Plugin) : List BaseProcess :=
  match p.pool with
  | none => []
  | some pool => pool.Workers workers

/-- Method `ActivityNames` returns list of all available activities: the call
`p.pool.ActivityNames()` on the interface value `p.pool`. -/
def Plugin.ActivityNames (p : Plugin) : Go (List String) :=
  match p.pool with
  | none => .panic nilDereference
  | some pool => .ret pool.ActivityNames

/-- An event handed to `poolListener`: a `events.PoolEvent` whose `Event` is
`EventPoolError`, with its payload, or anything else. -/
inductive PoolEvent where
  | EventPoolError (payload : GoError)
  | other (kind : Nat)
deriving DecidableEq, Repr

/-- Method `poolListener`. `reset` counts the sends `p.reset <- struct` that
the control loop has not received yet: the channel is unbuffered, a sender
waits until the loop takes its request, and a waiting sender changes nothing
else. -/
def Plugin.poolListener (event : PoolEvent) (reset : Nat) (trace : Trace) : Nat × Trace :=
  match event with
  | .EventPoolError payload =>
    (reset + 1, trace ++ [.LogError "Activity pool error" payload, .EventsPush])
  | .other _ => (reset, trace ++ [.EventsPush])

/-- Method `Reset` resets underlying workflow pool with new copy: one send on
`p.reset`, and nil. -/
def Plugin.Reset (reset : Nat) : Option GoError × Nat :=
  (none, reset + 1)

/-- The goroutine of `Serve` (lines 78-98) over `reset` requests that wait on
`p.reset`, taken one after the other: the number of passes that reached
replacePool, how the last pass ended, and the plugin, the trace and the error
channel at the end. -/
def Serve.loop (t : Temporal) (b : Backoff) :
    Nat → Plugin → Trace → List GoError → Nat × Go Loop × Plugin × Trace × List GoError
  | 0, p, trace, errCh => (0, .ret .next, p, trace, errCh)
  | reset + 1, p, trace, errCh =>
    match Serve.iteration t b p trace errCh with
    | (.ret .next, p₁, trace₁, errCh₁) =>
      match Serve.loop t b reset p₁ trace₁ errCh₁ with
      | (passes, rest) => (passes + 1, rest)
    | (.ret .exit, rest) => (0, .ret .exit, rest)
    | (.panic r, rest) => (1, .panic r, rest)

/-- The event `e`, if it is the creation of a worker, asks for the stop
timeout `g`. -/
def createdWith (g : Int) (e : Event) : Prop :=
  ∀ taskQueue options, e = Event.CreateWorker taskQueue options → options.WorkerStopTimeout = g

end activity

/-! ## `plugins/activity/plugin.go`: the earlier activity plugin -/

namespace plugins_activity

/-- Type `activityPool` of this package, which is not under src: a handle. -/
structure activityPool where
  ident : Nat
deriving DecidableEq, Repr

/-- Plugin to manage activity execution: its `pool` pointer. -/
structure Plugin where
  pool : Option activityPool
deriving DecidableEq, Repr

/-- Method `Stop`: `destroy pool trace` is the call `svc.pool.Destroy(ctx)`,
whose result is dropped. -/
def Plugin.Stop (destroy : activityPool → Trace → Option GoError × Trace) (svc : Plugin)
    (trace : Trace) : Option GoError × Plugin × Trace :=
  match svc.pool with
  | some pool => (none, svc, (destroy pool trace).2)
  | none => (none, svc, trace)

end plugins_activity

/-! ## `internal/logger/wrapper.go` -/

namespace logger

/-- A value of type `interface` as passed to the logger: a string, or a value
of another dynamic type. -/
inductive Interface where
  | string (s : String)
  | int (n : Int)
  | bool (b : Bool)
  | error (err : GoError)
  | nil
deriving DecidableEq, Repr

/-- Type `zap.Field`: the zero field, `zap.Any(key, value)`, or
`zap.Error(fmt.Errorf(format, keyvals))`. -/
inductive Field where
  | zero
  | Any (key : String) (value : Interface)
  | Error (format : String) (keyvals : List Interface)
deriving DecidableEq, Repr

/-- The runtime error raised by an index outside a slice. -/
def indexOutOfRange : String := "index out of range"

/-- Lines 45-48 of `fields`: the key of a pair, `Sprintf` being
`fmt.Sprintf("%v", x)`. -/
def fields.key (Sprintf : Interface → String) (x : Interface) : String :=
  match x with
  | .string s => s
  | other => Sprintf other

/-- The loop of `fields` (lines 44-52) from the indices `i` and `j` on. -/
def fields.loop (Sprintf : Interface → String) (keyvals : List Interface) (i j : Nat)
    (zf : List Field) : Go (List Field) :=
  if i < keyvals.length then
    match keyvals[i]?, keyvals[i + 1]? with
    | some k, some v =>
      if j < zf.length then
        fields.loop Sprintf keyvals (i + 2) (j + 1) (zf.set j (.Any (fields.key Sprintf k) v))
      else
        .panic indexOutOfRange
    | _, _ => .panic indexOutOfRange
  else
    .ret zf
termination_by keyvals.length - i
decreasing_by omega

/-- Method `fields` of `ZapAdapter`. -/
def ZapAdapter.fields (Sprintf : Interface → String) (keyvals : List Interface) : Go (List Field) :=
  if keyvals.length % 2 ≠ 0 then
    .ret [.Error "odd number of keyvals pairs: %v" keyvals]
  else
    fields.loop Sprintf keyvals 0 0 (List.replicate (keyvals.length / 2) .zero)

/-- The first `j` entries of `zf` are the first `j` pairs of `keyvals`: entry
`i` has the key of `keyvals[2 * i]` and the value `keyvals[2 * i + 1]`. -/
def fields.filled (Sprintf : Interface → String) (keyvals : List Interface) (j : Nat)
    (zf : List Field) : Prop :=
  ∀ i, i < j → ∃ k v, keyvals[2 * i]? = some k ∧ keyvals[2 * i + 1]? = some v ∧
    zf[i]? = some (.Any (fields.key Sprintf k) v)

end logger

/-! ## `plugin.go`: the root plugin -/

namespace roadrunner_temporal

/-- Interface `event_bus.EventBus`: the bus the plugin is subscribed to. -/
structure EventBus where
  ident : Nat
deriving DecidableEq, Repr

/-- Interface `io.Closer`: the closer of the metrics scope. -/
structure Closer where
  ident : Nat
deriving DecidableEq, Repr

/-- Interface `temporalClient.Client`: the connection to the orchestrator. -/
structure Client where
  ident : Nat
deriving DecidableEq, Repr

/-- The fields of the root `Plugin` that `SedID`, `Reset`, `Stop` and the loop
of `Serve` read or write. `tallyCloser`, `client` and `eventBus` are interface
values: `none` is nil. -/
structure Plugin where
  actP : WorkerPool
  wfP : WorkerPool
  rrVersion : String
  workflows : List (String × WorkflowInfo)
  activities : List (String × ActivityInfo)
  seqID : Nat
  workers : List Worker
  graceTimeout : Int
  tallyCloser : Option Closer
  client : Option Client
  eventBus : Option EventBus
deriving DecidableEq, Repr

/-- What `Reset` calls outside `plugin.go`. -/
structure Collaborators where
  PoolReset : Trace → WorkerPool → Option GoError
  GetWorkerInfo : Trace → WorkerPool → String → List WorkerInfo ⊕ GoError
  InitWorkers : Trace → List WorkerInfo → Int → List Worker × Option GoError
  WorkerStart : Trace → Worker → Option GoError
  GrabActivities : List WorkerInfo → List (String × ActivityInfo)
  GrabWorkflows : List WorkerInfo → List (String × WorkflowInfo)

/-- Method `SedID`: the id returned, the plugin and the trace afterwards
(`atomic.AddUint64` between the two debug lines). -/
def Plugin.SedID (p : Plugin) (trace : Trace) : Nat × Plugin × Trace :=
  ((p.seqID + 1) % 2 ^ 64, { p with seqID := (p.seqID + 1) % 2 ^ 64 },
    trace ++ [.LogDebug "sequenceID", .LogDebug "sequenceID"])

/-- The ids of `n` successive calls of `SedID`, in the order of issue, with the
plugin and the trace at the end. -/
def Plugin.issue : Nat → Plugin → Trace → List Nat × Plugin × Trace
  | 0, p, trace => ([], p, trace)
  | n + 1, p, trace =>
    match p.SedID trace with
    | (id, p₁, trace₁) =>
      match Plugin.issue n p₁ trace₁ with
      | (ids, p₂, trace₂) => (id :: ids, p₂, trace₂)

/-- The loop of `Reset` that starts the new worker handles. -/
def Reset.start (c : Collaborators) : List Worker → Trace → Option GoError × Trace
  | [], trace => (none, trace)
  | w :: rest, trace =>
    match c.WorkerStart trace w with
    | some err => (some err, trace ++ [.WorkerStart w])
    | none => Reset.start c rest (trace ++ [.WorkerStart w])

/-- Method `Reset`. -/
def Plugin.Reset (c : Collaborators) (p : Plugin) (trace : Trace) :
    Option GoError × Plugin × Trace :=
  let trace₁ := trace ++ [.LogInfo "reset signal received, resetting activity and workflow worker pools"]
    ++ p.workers.map Event.WorkerStop ++ [.PurgeStickyWorkflowCache]
  let p₁ := { p with workers := [] }
  match c.PoolReset trace₁ p.wfP with
  | some errWp => (some (.E "temporal_reset" errWp), p₁, trace₁ ++ [.PoolReset p.wfP])
  | none =>
    let trace₂ := trace₁ ++ [.PoolReset p.wfP, .LogInfo "workflow pool restarted"]
    match c.PoolReset trace₂ p.actP with
    | some errAp => (some (.E "temporal_reset" errAp), p₁, trace₂ ++ [.PoolReset p.actP])
    | none =>
      let trace₃ := trace₂ ++ [.PoolReset p.actP, .LogInfo "activity pool restarted"]
      match c.GetWorkerInfo trace₃ p.wfP p.rrVersion with
      | .inr err => (some err, p₁, trace₃ ++ [.GetWorkerInfo p.wfP])
      | .inl wi =>
        let trace₄ := trace₃ ++ [.GetWorkerInfo p.wfP]
        match c.InitWorkers trace₄ wi p.graceTimeout with
        | (workers, some err) => (some err, { p₁ with workers := workers }, trace₄ ++ [.InitWorkers wi])
        | (workers, none) =>
          match Reset.start c workers (trace₄ ++ [.InitWorkers wi]) with
          | (some err, trace₅) => (some err, { p₁ with workers := workers }, trace₅)
          | (none, trace₅) =>
            (none,
              { p₁ with
                  workers := workers
                  activities := c.GrabActivities wi
                  workflows := c.GrabWorkflows wi },
              trace₅)

/-- The trace of `Reset` once the current worker handles are stopped and the
sticky cache is purged (lines 247-255). -/
def Reset.stopped (p : Plugin) (trace : Trace) : Trace :=
  trace ++ [.LogInfo "reset signal received, resetting activity and workflow worker pools"]
    ++ p.workers.map Event.WorkerStop ++ [.PurgeStickyWorkflowCache]

/-- The trace of `Reset` once the workflow pool is reset (lines 257-261). -/
def Reset.workflowPoolReset (p : Plugin) (trace : Trace) : Trace :=
  Reset.stopped p trace ++ [.PoolReset p.wfP, .LogInfo "workflow pool restarted"]

/-- The trace of `Reset` once the activity pool is reset too (lines 263-267). -/
def Reset.poolsReset (p : Plugin) (trace : Trace) : Trace :=
  Reset.workflowPoolReset p trace ++ [.PoolReset p.actP, .LogInfo "activity pool restarted"]

/-- Method `Stop` of the root plugin: how the call ends, the plugin and the
trace afterwards. `close` is `p.tallyCloser.Close()`. The send on `stopCh` is
an event of the trace. -/
def Plugin.Stop (close : Trace → Option GoError) (p : Plugin) (trace : Trace) :
    Go (Option GoError) × Plugin × Trace :=
  match p.eventBus with
  | none => (.panic nilDereference, p, trace)
  | some _ =>
    let p₁ := { p with eventBus := none }
    let trace₁ := trace ++ [.Unsubscribe, .StopSignal] ++ p.workers.map Event.WorkerStop
    match p.tallyCloser with
    | some _ =>
      match close trace₁ with
      | some err => (.ret (some err), p₁, trace₁ ++ [.TallyClose])
      | none =>
        match p.client with
        | some _ => (.ret none, p₁, trace₁ ++ [.TallyClose, .ClientClose])
        | none => (.ret none, p₁, trace₁ ++ [.TallyClose])
    | none =>
      match p.client with
      | some _ => (.ret none, p₁, trace₁ ++ [.ClientClose])
      | none => (.ret none, p₁, trace₁)

/-- What wakes the loop of `Serve`: an event of the bus (with its message) or
the stop signal. -/
inductive Wakeup where
  | event (message : String)
  | stop
deriving DecidableEq, Repr

/-- One pass through the loop of `Serve` (lines 164-176): how the pass ends,
the plugin, the trace and the errors sent to `errCh` afterwards. -/
def Serve.iteration (c : Collaborators) (p : Plugin) (trace : Trace) (errCh : List GoError) :
    Wakeup → Loop × Plugin × Trace × List GoError
  | .stop => (.exit, p, trace, errCh)
  | .event message =>
    match p.Reset c
      (trace ++ [.LogDebug "worker stopped, restarting pool and temporal workers"]) with
    | (some errR, p₁, trace₁) =>
      (.exit, p₁, trace₁,
        errCh ++ [.E "temporal_plugin_serve"
          (.Errorf "error during reset: %#v, event: %s" errR message)])
    | (none, p₁, trace₁) => (.next, p₁, trace₁, errCh)

end roadrunner_temporal

/-! ## Concrete inputs used to evaluate the embedding -/

namespace Example

/-- The bytes of an ASCII text. -/
def ascii (s : String) : Bytes := s.toList.map (fun c => UInt8.ofNat c.toNat)

def dc : DataConverter := ⟨1⟩

def noOptions : workflow.ActivityOptions :=
  { TaskQueue := ""
    ScheduleToCloseTimeout := 0
    ScheduleToStartTimeout := 0
    StartToCloseTimeout := 0
    HeartbeatTimeout := 0
    WaitForCancellation := false
    ActivityID := "" }

/-- An `ExecuteActivity` payload as a workflow worker sends it. -/
def executeActivityParams : RawMessage :=
  ascii "\x7b\"name\":\"Echo\",\"arguments\":[\"hi\"]\x7d"

/-- What `json.Unmarshal` makes of `executeActivityParams`. -/
def executeActivityDecoded : workflow.ExecuteActivity :=
  { Name := "Echo", Args := [ascii "\"hi\""], Options := noOptions, ArgsPayload := none }

/-- A `CompleteWorkflow` payload as a workflow worker sends it. -/
def completeWorkflowParams : RawMessage :=
  ascii "\x7b\"result\":[\"done\"]\x7d"

/-- What `json.Unmarshal` makes of `completeWorkflowParams`. -/
def completeWorkflowDecoded : workflow.CompleteWorkflow :=
  { Result := [ascii "\"done\""], ResultPayload := none }

/-- A decoder that knows the two payloads above and `\x7b"ms":5\x7d`. -/
def json : workflow.JsonDecoder :=
  { ExecuteActivity := fun params =>
      if params = executeActivityParams then .inl executeActivityDecoded
      else .inr (.foreign "json: cannot unmarshal")
    NewTimer := fun params =>
      if params = ascii "\x7b\"ms\":5\x7d" then .inl ⟨5⟩
      else .inr (.foreign "json: cannot unmarshal")
    CompleteWorkflow := fun params =>
      if params = completeWorkflowParams then .inl completeWorkflowDecoded
      else .inr (.foreign "json: cannot unmarshal") }

/-- One raw value in the native encoding. -/
def encode (value : RawMessage) : Payload :=
  { Metadata := [("encoding", ascii "json/plain")], Data := value }

/-- A `ToPayload` that stores the converted values in the `Payloads` it was
given a pointer to, and returns nil when it was given none. -/
def toPayload : workflow.ToPayloadImpl :=
  { atNil := fun _ _ => .ret none
    atPointer := fun _ values _ => .ret (none, ⟨values.map encode⟩) }

/-- The metadata of one invocation of the activity `Echo`. -/
def info : activity.Info :=
  { TaskToken := [1, 2, 3]
    WorkflowExecution := ⟨"wf-1", "run-1"⟩
    ActivityID := "5"
    ActivityType := ⟨"Echo"⟩
    TaskQueue := "default"
    Attempt := 1 }

/-- A first attempt: no heartbeat details recorded. -/
def ctx : activity.Context :=
  { ident := 7, HasHeartbeatDetails := false, GetHeartbeatDetails := .inl ⟨[]⟩, GetInfo := info }

/-- A retry of an activity that had reported `\x7b"value":2\x7d` as progress. -/
def ctxHeartbeat : activity.Context :=
  { ident := 8
    HasHeartbeatDetails := true
    GetHeartbeatDetails := .inl ⟨[encode (ascii "\x7b\"value\":2\x7d")]⟩
    GetInfo := info }

/-- A first attempt on which a fetch of heartbeat details would fail. -/
def ctxNoDetails : activity.Context :=
  { ident := 9
    HasHeartbeatDetails := false
    GetHeartbeatDetails := .inr (.foreign "no heartbeat details")
    GetInfo := info }

/-- The arguments `("hi")`. -/
def args : Payloads := ⟨[encode (ascii "\"hi\"")]⟩

/-- A started pool that has issued no id yet. -/
def pool : activity.activityPoolImpl :=
  { dc := some dc
    codec := ⟨"json"⟩
    seqID := 0
    activities := ["Echo"]
    wp := ⟨1⟩
    tWorkers := [⟨1⟩]
    running := ⟨[]⟩
    graceTimeout := 0 }

/-- A worker side that answers every message with the batch `replies`. -/
def replyWith (replies : List activity.Message) : activity.Exchange :=
  { Execute := fun _ _ _ _ _ => .inl replies
    ConvertFailureToError := fun failure _ => .foreign failure.Message }

/-- A reply that carries `payloads` and no failure. -/
def success (payloads : Payloads) : activity.Message :=
  { ID := 1, Command := none, Failure := none, Payloads := some payloads }

/-- A reply that carries a failure with the message `text`. -/
def failed (text : String) : activity.Message :=
  { ID := 1, Command := none, Failure := some ⟨text, "PHP_SDK", ""⟩, Payloads := none }

/-- The message `executeActivity` builds for `ctx` and `args` on `pool`. -/
def message : activity.Message :=
  { ID := 1
    Command := some ⟨"Echo", info, 0⟩
    Failure := none
    Payloads := some args }

/-- The pool while the exchange for `ctx` is in flight. -/
def during : activity.activityPoolImpl :=
  { pool with seqID := 1, running := ⟨[([1, 2, 3], ctx)]⟩ }

/-- The root plugin with its counter at `seqID`. -/
def root (seqID : Nat) : roadrunner_temporal.Plugin :=
  { actP := ⟨1⟩
    wfP := ⟨2⟩
    rrVersion := "2.0.0"
    workflows := []
    activities := []
    seqID := seqID
    workers := []
    graceTimeout := 0
    tallyCloser := some ⟨1⟩
    client := some ⟨1⟩
    eventBus := some ⟨1⟩ }

/-- Collaborators of the root plugin with which every step of a reset
succeeds and the catalogue is empty. -/
def collaborators : roadrunner_temporal.Collaborators :=
  { PoolReset := fun _ _ => none
    GetWorkerInfo := fun _ _ _ => .inl []
    InitWorkers := fun _ _ _ => ([], none)
    WorkerStart := fun _ _ => none
    GrabActivities := fun _ => []
    GrabWorkflows := fun _ => [] }

/-- The catalogue of a worker that advertises the activity `Echo`. -/
def workerInfo : List WorkerInfo :=
  [{ TaskQueue := "default", Options := ⟨0, 0⟩, Workflows := [], Activities := [⟨"Echo"⟩] }]

/-- Collaborators with which every step of starting a pool succeeds. -/
def temporal : activity.Temporal :=
  { GetDataConverter := dc
    GetCodec := ⟨"json"⟩
    RRMode := "temporal/activity"
    NewWorkerPool := fun _ _ => .inl ⟨2⟩
    FetchWorkerInfo := fun _ _ _ _ => .inl workerInfo
    CreateWorker := fun _ _ _ => .inl ⟨2⟩
    WorkerStart := fun _ _ => none }

/-- The first generation after it served two invocations of `Echo`. -/
def generation1 : activity.activityPoolImpl := { pool with seqID := 2 }

/-- The activity plugin with `generation1` as its current pool. -/
def plugin : activity.Plugin := { pool := some generation1, graceTimeout := 0, closing := 0 }

/-- The pool that `replacePool` installs with the collaborators `temporal`. -/
def generation2 : activity.activityPoolImpl :=
  { dc := some dc
    codec := ⟨"json"⟩
    seqID := 0
    activities := ["Echo"]
    wp := ⟨2⟩
    tWorkers := [⟨2⟩]
    running := ⟨[]⟩
    graceTimeout := 0 }

/-- A `ToPayload` whose conversion fails. -/
def toPayloadFailing : workflow.ToPayloadImpl :=
  { atNil := fun _ _ => .ret (some (.foreign "unable to encode"))
    atPointer := fun _ _ p => .ret (some (.foreign "unable to encode"), p) }

/-- The environment of the run `run-1` of the workflow `wf-1` of type
`SimpleWorkflow`. -/
def env : workflow.WorkflowEnvironment :=
  { WorkflowInfo :=
      { WorkflowExecution := ⟨"wf-1", "run-1"⟩
        WorkflowType := ⟨"SimpleWorkflow"⟩
        TaskQueueName := "default" }
    GetDataConverter := dc }

/-- A `FromPayload` that stores the data of each payload, and fails on a nil
payloads pointer. -/
def fromPayload : workflow.FromPayloadImpl :=
  { run := fun _ payloads values =>
      match payloads with
      | some p => .ret (none, p.Payloads.map (fun x => x.Data))
      | none => .ret (some (.foreign "no payloads"), values) }

/-- A start command that has not been filled in. -/
def start : workflow.StartWorkflow :=
  { Name := "", Wid := "", Rid := "", TaskQueue := "", Input := [] }

/-- A catalogue that advertises `A.foo` and `A.bar` on one task queue and
`B.baz` on another. -/
def catalogue : List WorkerInfo :=
  [{ TaskQueue := "default", Options := ⟨0, 0⟩, Workflows := [],
      Activities := [⟨"A.foo"⟩, ⟨"A.bar"⟩] },
    { TaskQueue := "other", Options := ⟨0, 0⟩, Workflows := [], Activities := [⟨"B.baz"⟩] }]

/-- The collaborators `temporal`, with a worker that advertises `catalogue`. -/
def temporalCatalogue : activity.Temporal :=
  { temporal with FetchWorkerInfo := fun _ _ _ _ => .inl catalogue }

/-- A `Destroy` of the previous pool that fails. -/
def destroyFailing (_current : activity.Plugin) (previous : activity.activityPoolImpl)
    (trace : Trace) : Option GoError × Trace :=
  (some (.foreign "destroy failed"), trace ++ [.PoolDestroy previous.wp])

/-- Collaborators with which no worker pool can be created. -/
def temporalNoPool : activity.Temporal :=
  { temporal with NewWorkerPool := fun _ _ => .inr (.foreign "no workers") }

/-- Collaborators with which the worker handles do not start. -/
def temporalNoStart : activity.Temporal :=
  { temporal with WorkerStart := fun _ _ => some (.foreign "cannot start") }

/-- The root plugin while it serves with two worker handles. -/
def rootServing : roadrunner_temporal.Plugin := { root 0 with workers := [⟨1⟩, ⟨2⟩] }

/-- Collaborators of the root plugin with which no pool can be reset. -/
def collaboratorsFailing : roadrunner_temporal.Collaborators :=
  { collaborators with PoolReset := fun _ _ => some (.foreign "pool reset failed") }

/-- Collaborators of the root plugin with which a reset succeeds and brings
up one worker handle for the catalogue `workerInfo`. -/
def collaboratorsEcho : roadrunner_temporal.Collaborators :=
  { collaborators with
      GetWorkerInfo := fun _ _ _ => .inl workerInfo
      InitWorkers := fun _ _ _ => ([⟨3⟩], none)
      GrabActivities := fun wi => wi.flatMap (fun w => w.Activities.map (fun a => (a.Name, a)))
      GrabWorkflows := fun wi => wi.flatMap (fun w => w.Workflows.map (fun a => (a.Name, a))) }

/-- A retry library whose `Retry` gives the operation one more attempt. Its
defaults: 500 ms initial interval, 60 s maximal interval, 15 min in all. -/
def backoff : activity.Backoff :=
  { NewExponentialBackOff :=
      { InitialInterval := 500000000, MaxInterval := 60000000000, MaxElapsedTime := 900000000000 }
    Retry := fun operation _ p trace => operation p trace }

/-- Collaborators with which the first worker pool cannot be created and every
later one can. -/
def temporalSecondTry : activity.Temporal :=
  { temporal with
    NewWorkerPool := fun trace _ =>
      if trace.isEmpty then .inr (.foreign "no workers") else .inl ⟨2⟩ }

/-- A retry during whose wait before the attempt another goroutine calls
`Stop` on the plugin. -/
def backoffStopDuringWait : activity.Backoff :=
  { backoff with
    Retry := fun operation _ p trace => operation (p.Stop trace).2.1 (p.Stop trace).2.2 }

/-- The earlier activity plugin while it serves with a pool. -/
def svc : plugins_activity.Plugin := { pool := some ⟨1⟩ }

/-- A `Destroy` of the earlier plugin's pool that is called and returns an
error. -/
def svcDestroyFailing : plugins_activity.activityPool → Trace → Option GoError × Trace :=
  fun pool trace => (some (.foreign "destroy failed"), trace ++ [.PoolDestroy ⟨pool.ident⟩])

/-- The activity plugin before `Serve`: no pool, not closing. -/
def fresh : activity.Plugin := { pool := none, graceTimeout := 0, closing := 0 }

/-- The activity plugin after `Stop`: no pool, closing. -/
def stopped : activity.Plugin := { pool := none, graceTimeout := 0, closing := 1 }

/-- Worker pools with two processes each. -/
def workers : WorkerPool → List activity.BaseProcess := fun _ => [⟨101⟩, ⟨102⟩]

/-- A configuration with a graceful timeout of 30 seconds. -/
def configurer : activity.Configurer :=
  { HasRootPlugin := true, HasActivities := true, GracefulTimeout := 30000000000 }

/-- A failure event of the worker pool. -/
def poolError : activity.PoolEvent := .EventPoolError (.foreign "worker exited")

/-- A `%v` formatting for the values used below. -/
def sprintf : logger.Interface → String
  | .string s => s
  | .int n => toString n
  | .bool b => toString b
  | .error _ => "error"
  | .nil => "<nil>"

/-- The plugin after `Init` with `configurer`. -/
def configured : activity.Plugin := (fresh.Init configurer).2

end Example

/-! ## The workflow command parser -/

namespace workflow

/-- C1: for every command name other than ExecuteActivity, NewTimer and
CompleteWorkflow, and every payload, parseCommand returns no command and an
error that carries the name but not the text "undefined command type": the
value is the `Error` with `Op` parseCommand and `Err` the name, the same that
`errors.E` returns when the text is another one or is left out, because the
name is stored in `Err` after the text and in its place. -/
theorem parseCommand_unknown_name_drops_tag (json : JsonDecoder) (impl : ToPayloadImpl)
    (dc : DataConverter) (name : String) (params : RawMessage)
    (h₁ : name ≠ ExecuteActivityCommand) (h₂ : name ≠ NewTimerCommand)
    (h₃ : name ≠ CompleteWorkflowCommand) :
    parseCommand json impl dc name params = .ret (.error (.E "parseCommand" (.Str name))) ∧
    (∀ text, errors.E (.Op "parseCommand") [.string text, .error (some (.Str name))] =
      .E "parseCommand" (.Str name)) ∧
    errors.E (.Op "parseCommand") [.error (some (.Str name))] = .E "parseCommand" (.Str name) := by
  refine ⟨?_, fun _ => rfl, rfl⟩
  simp [parseCommand, h₁, h₂, h₃]
  rfl

/-- C1 at the name `StartWorkflow`, which the parser does not handle: the error
is the one of `errors.E(errors.Op("parseCommand"), errors.Str("StartWorkflow"))`. -/
theorem parseCommand_unknown_name_drops_tag_witness :
    parseCommand Example.json Example.toPayload Example.dc StartWorkflowCommand [] =
      .ret (.error (.E "parseCommand" (.Str "StartWorkflow"))) :=
  (parseCommand_unknown_name_drops_tag Example.json Example.toPayload Example.dc
    StartWorkflowCommand [] (by decide) (by decide) (by decide)).1

/-- After `rrt.ToPayload` returned, a nil pointer is still nil. -/
theorem ToPayload_nil (impl : ToPayloadImpl) (dc : DataConverter) (values : List RawMessage)
    (err : Option GoError) (ptr : Option Payloads)
    (h : ToPayload impl dc values none = .ret (err, ptr)) : ptr = none := by
  unfold ToPayload at h
  cases hn : impl.atNil dc values with
  | panic r => simp [hn] at h
  | ret e =>
    simp [hn] at h
    exact h.2.symm

/-- C9: whatever the decoder and `rrt.ToPayload` do, when the decoded
ExecuteActivity payload has no `ArgsPayload` of its own (the pointer is nil,
as for every payload that follows the command's schema), a command that
parseCommand returns is the decoded command unchanged: Name, Args and Options
are the payload's and `ArgsPayload` is still nil, so it does not hold the
converted arguments. -/
theorem parseCommand_ExecuteActivity_ArgsPayload_nil (json : JsonDecoder) (impl : ToPayloadImpl)
    (dc : DataConverter) (params : RawMessage) (cmd : ExecuteActivity) (c : Command)
    (hdec : json.ExecuteActivity params = .inl cmd) (hnil : cmd.ArgsPayload = none)
    (hret : parseCommand json impl dc ExecuteActivityCommand params = .ret (.command c)) :
    c = .ExecuteActivity cmd ∧ cmd.ArgsPayload = none := by
  refine ⟨?_, hnil⟩
  simp only [parseCommand, if_true, hdec, hnil] at hret
  cases hT : ToPayload impl dc cmd.Args none with
  | panic r => simp [hT] at hret
  | ret out =>
    obtain ⟨err, ptr⟩ := out
    have hp : ptr = none := ToPayload_nil impl dc cmd.Args err ptr hT
    subst hp
    cases err with
    | some e => simp [hT] at hret
    | none =>
      simp [hT] at hret
      rw [← hret, ← hnil]

/-- C9 at the payload `\x7b"name":"Echo","arguments":["hi"]\x7d`: the command
comes back as decoded, with a nil `ArgsPayload`. -/
theorem parseCommand_ExecuteActivity_ArgsPayload_nil_witness :
    parseCommand Example.json Example.toPayload Example.dc ExecuteActivityCommand
        Example.executeActivityParams =
      .ret (.command (.ExecuteActivity Example.executeActivityDecoded)) ∧
    Example.executeActivityDecoded.ArgsPayload = none :=
  ⟨rfl, (parseCommand_ExecuteActivity_ArgsPayload_nil Example.json Example.toPayload Example.dc
    Example.executeActivityParams Example.executeActivityDecoded
    (.ExecuteActivity Example.executeActivityDecoded) rfl rfl rfl).2⟩

/-- C10: whatever the decoder and `rrt.ToPayload` do, when the decoded
CompleteWorkflow payload has no `ResultPayload` of its own (the pointer is
nil, as for every payload that follows the command's schema), a command that
parseCommand returns is the decoded command unchanged: Result is the payload's
and `ResultPayload` is still nil, so it does not hold the converted result. -/
theorem parseCommand_CompleteWorkflow_ResultPayload_nil (json : JsonDecoder)
    (impl : ToPayloadImpl) (dc : DataConverter) (params : RawMessage) (cmd : CompleteWorkflow)
    (c : Command) (hdec : json.CompleteWorkflow params = .inl cmd)
    (hnil : cmd.ResultPayload = none)
    (hret : parseCommand json impl dc CompleteWorkflowCommand params = .ret (.command c)) :
    c = .CompleteWorkflow cmd ∧ cmd.ResultPayload = none := by
  refine ⟨?_, hnil⟩
  have e₁ : CompleteWorkflowCommand ≠ ExecuteActivityCommand := by decide
  have e₂ : CompleteWorkflowCommand ≠ NewTimerCommand := by decide
  simp only [parseCommand, if_true, if_neg e₁, if_neg e₂, hdec, hnil] at hret
  cases hT : ToPayload impl dc cmd.Result none with
  | panic r => simp [hT] at hret
  | ret out =>
    obtain ⟨err, ptr⟩ := out
    have hp : ptr = none := ToPayload_nil impl dc cmd.Result err ptr hT
    subst hp
    cases err with
    | some e => simp [hT] at hret
    | none =>
      simp [hT] at hret
      rw [← hret, ← hnil]

/-- C10 at the payload `\x7b"result":["done"]\x7d`: the command comes back as
decoded, with a nil `ResultPayload`. -/
theorem parseCommand_CompleteWorkflow_ResultPayload_nil_witness :
    parseCommand Example.json Example.toPayload Example.dc CompleteWorkflowCommand
        Example.completeWorkflowParams =
      .ret (.command (.CompleteWorkflow Example.completeWorkflowDecoded)) ∧
    Example.completeWorkflowDecoded.ResultPayload = none :=
  ⟨rfl, (parseCommand_CompleteWorkflow_ResultPayload_nil Example.json Example.toPayload
    Example.dc Example.completeWorkflowParams Example.completeWorkflowDecoded
    (.CompleteWorkflow Example.completeWorkflowDecoded) rfl rfl rfl).2⟩

/-- Only a payload that brings a `Payloads` object of its own gets converted
arguments: the pointer then is not nil and the command holds what
`rrt.ToPayload` stored behind it. -/
theorem parseCommand_ExecuteActivity_ArgsPayload_pointer (json : JsonDecoder)
    (impl : ToPayloadImpl) (dc : DataConverter) (params : RawMessage) (cmd : ExecuteActivity)
    (p q : Payloads) (hdec : json.ExecuteActivity params = .inl cmd)
    (hptr : cmd.ArgsPayload = some p) (hconv : impl.atPointer dc cmd.Args p = .ret (none, q)) :
    parseCommand json impl dc ExecuteActivityCommand params =
      .ret (.command (.ExecuteActivity { cmd with ArgsPayload := some q })) := by
  simp [parseCommand, hdec, hptr, ToPayload, hconv]

end workflow

/-! ## The in-flight map -/

namespace activity

namespace SyncMap

theorem find?_filter_self {V : Type} (l : List (Bytes × V)) (key : Bytes) :
    (l.filter (fun e => decide (e.1 ≠ key))).find? (fun e => decide (e.1 = key)) = none := by
  rw [List.find?_eq_none]
  intro e he
  have := (List.mem_filter.mp he).2
  simpa using this

theorem find?_filter_ne {V : Type} (l : List (Bytes × V)) (key other : Bytes) (h : other ≠ key) :
    (l.filter (fun e => decide (e.1 ≠ key))).find? (fun e => decide (e.1 = other)) =
      l.find? (fun e => decide (e.1 = other)) := by
  induction l with
  | nil => rfl
  | cons e rest ih =>
    by_cases hk : e.1 = key
    · have ho : ¬ e.1 = other := fun h' => h (h'.symm.trans hk)
      rw [List.filter_cons_of_neg (by simpa using hk), List.find?_cons_of_neg _ (by simpa using ho)]
      exact ih
    · rw [List.filter_cons_of_pos (by simpa using hk)]
      by_cases ho : e.1 = other
      · rw [List.find?_cons_of_pos _ (by simpa using ho),
          List.find?_cons_of_pos _ (by simpa using ho)]
      · rw [List.find?_cons_of_neg _ (by simpa using ho),
          List.find?_cons_of_neg _ (by simpa using ho)]
        exact ih

/-- After `Delete key` the map has no entry for `key`. -/
theorem Load_Delete_self {V : Type} (m : SyncMap V) (key : Bytes) :
    (m.Delete key).Load key = none := by
  unfold Load Delete
  rw [find?_filter_self]

/-- After `Store key value` the map holds `value` under `key`. -/
theorem Load_Store_self {V : Type} (m : SyncMap V) (key : Bytes) (value : V) :
    (m.Store key value).Load key = some value := by
  unfold Load Store
  rw [List.find?_cons_of_pos _ (by simp)]

/-- Method `Delete key` leaves the entries of the other keys alone. -/
theorem Load_Delete_of_ne {V : Type} (m : SyncMap V) (key other : Bytes) (h : other ≠ key) :
    (m.Delete key).Load other = m.Load other := by
  unfold Load Delete
  rw [find?_filter_ne _ _ _ h]

/-- Method `Store key` leaves the entries of the other keys alone. -/
theorem Load_Store_of_ne {V : Type} (m : SyncMap V) (key other : Bytes) (value : V)
    (h : other ≠ key) : (m.Store key value).Load other = m.Load other := by
  have hk : ¬ key = other := fun h' => h h'.symm
  unfold Load Store Delete
  rw [List.find?_cons_of_neg _ (by simpa using hk), find?_filter_ne _ _ _ h]

end SyncMap

/-! ## The activity execution bridge -/

/-- When `executeActivity` reaches `codec.Execute`, the pool differs from the
pool at entry in two fields: the counter was incremented and the context is
stored under the task token. -/
theorem executeActivity.prepare_dispatch (pool : activityPoolImpl) (ctx : Context)
    (args : Option Payloads) (msg : Message) (during : activityPoolImpl)
    (h : executeActivity.prepare pool ctx args = (.dispatch msg, during)) :
    during =
      { pool with
          seqID := (pool.seqID + 1) % 2 ^ 64
          running := pool.running.Store (ToString ctx.GetInfo.TaskToken) ctx } ∧
    msg.ID = (pool.seqID + 1) % 2 ^ 64 := by
  unfold executeActivity.prepare at h
  cases hhb : executeActivity.heartbeatDetails ctx with
  | inr err => simp [hhb] at h
  | inl hb =>
    simp only [hhb] at h
    by_cases hk : hb.Payloads.length ≠ 0
    · rw [if_pos hk] at h
      cases args with
      | none => simp at h
      | some a =>
        simp only [Prod.mk.injEq, Prepared.dispatch.injEq] at h
        exact ⟨h.2.symm, by rw [← h.1]⟩
    · rw [if_neg hk] at h
      simp only [Prod.mk.injEq, Prepared.dispatch.injEq] at h
      exact ⟨h.2.symm, by rw [← h.1]⟩

/-- C2: for every call of executeActivity that reaches dispatch, the in-flight
map holds the call's context under its task token in the state in which
codec.Execute is invoked, and holds no entry for that task token once the call
has returned, whatever codec.Execute answered. -/
theorem executeActivity_running_during_exchange (x : Exchange) (pool : activityPoolImpl)
    (ctx : Context) (args : Option Payloads) (msg : Message) (during : activityPoolImpl)
    (h : executeActivity.prepare pool ctx args = (.dispatch msg, during)) :
    during.running.Load (ToString ctx.GetInfo.TaskToken) = some ctx ∧
    (pool.executeActivity x ctx args).1 =
      .ret (executeActivity.interpret x during
        (x.Execute during during.codec during.wp ⟨ctx.GetInfo.TaskQueue⟩ msg)) ∧
    (pool.executeActivity x ctx args).2.running.Load (ToString ctx.GetInfo.TaskToken) = none := by
  have hd := (executeActivity.prepare_dispatch pool ctx args msg during h).1
  refine ⟨?_, ?_, ?_⟩
  · rw [hd]
    exact SyncMap.Load_Store_self _ _ _
  · simp [activityPoolImpl.executeActivity, h]
  · simp only [activityPoolImpl.executeActivity, h]
    exact SyncMap.Load_Delete_self _ _

/-- C2 on a first attempt of `Echo` against a worker that mirrors its input:
the context is in the map during the exchange and gone afterwards. -/
theorem executeActivity_running_during_exchange_witness :
    Example.during.running.Load (ToString Example.info.TaskToken) = some Example.ctx ∧
    (Example.pool.executeActivity (Example.replyWith [Example.success Example.args]) Example.ctx
      (some Example.args)).1 = .ret (some Example.args, none) ∧
    (Example.pool.executeActivity (Example.replyWith [Example.success Example.args]) Example.ctx
      (some Example.args)).2.running.Load (ToString Example.info.TaskToken) = none :=
  executeActivity_running_during_exchange (Example.replyWith [Example.success Example.args])
    Example.pool Example.ctx (some Example.args) Example.message Example.during rfl

/-- C3: GetActivityContext returns the stored context and no error exactly when
the in-flight map holds that context under the task token, returns no context
and the error "heartbeat on non running activity" exactly when the map has no
entry for the token, and leaves the pool, the map included, unchanged. -/
theorem GetActivityContext_lookup (pool : activityPoolImpl) (taskToken : Bytes) :
    (∀ c, (pool.GetActivityContext taskToken).1 = (some c, none) ↔
      pool.running.Load (ToString taskToken) = some c) ∧
    ((pool.GetActivityContext taskToken).1 =
        (none, some (.E "activity_pool_get_activity_context"
          (.Str "heartbeat on non running activity"))) ↔
      pool.running.Load (ToString taskToken) = none) ∧
    (pool.GetActivityContext taskToken).2 = pool := by
  unfold activityPoolImpl.GetActivityContext
  cases hl : pool.running.Load (ToString taskToken) with
  | none => simp
  | some c => simp

/-- C4: when the exchange succeeds with a result batch whose length is not 1,
executeActivity returns no payload and the error "invalid activity worker
response", whatever the batch holds. -/
theorem executeActivity_invalid_response (x : Exchange) (pool : activityPoolImpl)
    (ctx : Context) (args : Option Payloads) (msg : Message) (during : activityPoolImpl)
    (result : List Message)
    (h : executeActivity.prepare pool ctx args = (.dispatch msg, during))
    (hx : x.Execute during during.codec during.wp ⟨ctx.GetInfo.TaskQueue⟩ msg = .inl result)
    (hlen : result.length ≠ 1) :
    (pool.executeActivity x ctx args).1 =
      .ret (none, some (.E "activity_pool_execute_activity"
        (.Str "invalid activity worker response"))) := by
  simp [activityPoolImpl.executeActivity, h, hx, executeActivity.interpret, hlen]

/-- C4 on a batch of two successful replies: neither is picked. -/
theorem executeActivity_invalid_response_witness :
    (Example.pool.executeActivity
      (Example.replyWith [Example.success Example.args, Example.success Example.args])
      Example.ctx (some Example.args)).1 =
      .ret (none, some (.E "activity_pool_execute_activity"
        (.Str "invalid activity worker response"))) :=
  executeActivity_invalid_response
    (Example.replyWith [Example.success Example.args, Example.success Example.args])
    Example.pool Example.ctx (some Example.args) Example.message Example.during
    [Example.success Example.args, Example.success Example.args] rfl rfl (by decide)

/-- The data converter of the pool is the same before and during the exchange. -/
theorem executeActivity.prepare_dc (pool : activityPoolImpl) (ctx : Context)
    (args : Option Payloads) (msg : Message) (during : activityPoolImpl)
    (h : executeActivity.prepare pool ctx args = (.dispatch msg, during)) :
    during.dc = pool.dc := by
  rw [(executeActivity.prepare_dispatch pool ctx args msg during h).1]

/-- C5: for a batch of exactly one reply, executeActivity returns the pending
signal and no payload when the reply carries a failure whose message is
"doNotCompleteOnReturn", no payload and the failure converted with the pool's
data converter when it carries a failure with another message, and the reply's
payload with no error when it carries no failure. -/
theorem executeActivity_single_reply (x : Exchange) (pool : activityPoolImpl)
    (ctx : Context) (args : Option Payloads) (msg : Message) (during : activityPoolImpl)
    (out : Message)
    (h : executeActivity.prepare pool ctx args = (.dispatch msg, during))
    (hx : x.Execute during during.codec during.wp ⟨ctx.GetInfo.TaskQueue⟩ msg = .inl [out]) :
    (∀ failure, out.Failure = some failure → failure.Message = doNotCompleteOnReturn →
      (pool.executeActivity x ctx args).1 = .ret (none, some .ErrResultPending)) ∧
    (∀ failure, out.Failure = some failure → failure.Message ≠ doNotCompleteOnReturn →
      (pool.executeActivity x ctx args).1 =
        .ret (none, some (x.ConvertFailureToError failure pool.dc))) ∧
    (out.Failure = none →
      (pool.executeActivity x ctx args).1 = .ret (out.Payloads, none)) := by
  have hdc := executeActivity.prepare_dc pool ctx args msg during h
  refine ⟨?_, ?_, ?_⟩
  · intro failure hf hm
    simp [activityPoolImpl.executeActivity, h, hx, executeActivity.interpret, hf, hm]
  · intro failure hf hm
    simp [activityPoolImpl.executeActivity, h, hx, executeActivity.interpret, hf, hm, hdc]
  · intro hf
    simp [activityPoolImpl.executeActivity, h, hx, executeActivity.interpret, hf]

/-- C5 on a reply that carries the sentinel: the pending signal comes back. -/
theorem executeActivity_single_reply_witness :
    (Example.pool.executeActivity (Example.replyWith [Example.failed "doNotCompleteOnReturn"])
      Example.ctx (some Example.args)).1 = .ret (none, some .ErrResultPending) :=
  (executeActivity_single_reply (Example.replyWith [Example.failed "doNotCompleteOnReturn"])
    Example.pool Example.ctx (some Example.args) Example.message Example.during
    (Example.failed "doNotCompleteOnReturn") rfl rfl).1 ⟨"doNotCompleteOnReturn", "PHP_SDK", ""⟩
    rfl rfl

/-- The other two readings of a single reply, evaluated: a failure with another
message is converted, a reply without failure gives its payload. -/
theorem single_reply_other_readings :
    (Example.pool.executeActivity (Example.replyWith [Example.failed "boom"])
      Example.ctx (some Example.args)).1 = .ret (none, some (.foreign "boom")) ∧
    (Example.pool.executeActivity (Example.replyWith [Example.success Example.args])
      Example.ctx (some Example.args)).1 = .ret (some Example.args, none) := by
  constructor <;> rfl

/-- C6: when the orchestrator reports no heartbeat details for the invocation
(`HasHeartbeatDetails` is false) nothing is fetched, and the message that
executeActivity dispatches carries exactly the arguments and an InvokeActivity
command with HeartbeatDetails = 0. When it reports details and the fetch
(`GetHeartbeatDetails`) gives k payloads, the message carries the arguments
followed by the k heartbeat payloads in their order, and the command has
HeartbeatDetails = k; with k = 0 the payloads are exactly the arguments. In
both cases Name is the activity type name and Info the invocation info. Such a
message is dispatched whenever the arguments pointer is not nil or k = 0, and
no message is dispatched otherwise, nor when the fetch fails. -/
theorem executeActivity_dispatched_message (pool : activityPoolImpl) (ctx : Context)
    (args : Option Payloads) :
    (ctx.HasHeartbeatDetails = false →
      (executeActivity.prepare pool ctx args).1 = .dispatch
        { ID := (pool.seqID + 1) % 2 ^ 64
          Command := some
            { Name := ctx.GetInfo.ActivityType.Name
              Info := ctx.GetInfo
              HeartbeatDetails := 0 }
          Failure := none
          Payloads := args }) ∧
    (∀ hb, ctx.HasHeartbeatDetails = true → ctx.GetHeartbeatDetails = .inl hb →
      (∀ a, args = some a →
        (executeActivity.prepare pool ctx args).1 = .dispatch
          { ID := (pool.seqID + 1) % 2 ^ 64
            Command := some
              { Name := ctx.GetInfo.ActivityType.Name
                Info := ctx.GetInfo
                HeartbeatDetails := hb.Payloads.length }
            Failure := none
            Payloads := some ⟨a.Payloads ++ hb.Payloads⟩ }) ∧
      (hb.Payloads = [] →
        (executeActivity.prepare pool ctx args).1 = .dispatch
          { ID := (pool.seqID + 1) % 2 ^ 64
            Command := some
              { Name := ctx.GetInfo.ActivityType.Name
                Info := ctx.GetInfo
                HeartbeatDetails := 0 }
            Failure := none
            Payloads := args }) ∧
      (∀ msg, (executeActivity.prepare pool ctx args).1 = .dispatch msg →
        hb.Payloads = [] ∨ ∃ a, args = some a)) ∧
    (∀ err, ctx.HasHeartbeatDetails = true → ctx.GetHeartbeatDetails = .inr err →
      executeActivity.prepare pool ctx args =
        (.returned (.E "activity_pool_execute_activity" err), pool)) := by
  refine ⟨?_, ?_, ?_⟩
  · intro hno
    simp [executeActivity.prepare, executeActivity.heartbeatDetails, hno]
  · intro hb hhas hget
    have hhb : executeActivity.heartbeatDetails ctx = .inl hb := by
      simp [executeActivity.heartbeatDetails, hhas, hget]
    refine ⟨?_, ?_, ?_⟩
    · intro a ha
      subst ha
      by_cases hk : hb.Payloads.length ≠ 0
      · simp [executeActivity.prepare, hhb, hk]
      · have h0 : hb.Payloads = [] := by
          simpa [List.length_eq_zero] using hk
        simp [executeActivity.prepare, hhb, h0]
    · intro h0
      simp [executeActivity.prepare, hhb, h0]
    · intro msg hmsg
      by_cases h0 : hb.Payloads = []
      · exact Or.inl h0
      · right
        cases args with
        | some a => exact ⟨a, rfl⟩
        | none =>
          have hk : hb.Payloads.length ≠ 0 := by
            simpa [List.length_eq_zero] using h0
          simp [executeActivity.prepare, hhb, h0] at hmsg
  · intro err hhas hget
    simp [executeActivity.prepare, executeActivity.heartbeatDetails, hhas, hget]

/-- C6 on a retry of `Echo("hi")` that had reported one heartbeat payload: the
message carries the argument, then the heartbeat payload, and counts 1; and on
a first attempt, with no details reported and a fetch that would fail: the
message carries the argument. -/
theorem executeActivity_dispatched_message_witness :
    (executeActivity.prepare Example.pool Example.ctxHeartbeat (some Example.args)).1 = .dispatch
      { ID := 1
        Command := some ⟨"Echo", Example.info, 1⟩
        Failure := none
        Payloads := some
          ⟨[Example.encode (Example.ascii "\"hi\""),
            Example.encode (Example.ascii "\x7b\"value\":2\x7d")]⟩ } ∧
    (executeActivity.prepare Example.pool Example.ctxNoDetails (some Example.args)).1 = .dispatch
      { ID := 1
        Command := some ⟨"Echo", Example.info, 0⟩
        Failure := none
        Payloads := some Example.args } :=
  ⟨((executeActivity_dispatched_message Example.pool Example.ctxHeartbeat
      (some Example.args)).2.1
    ⟨[Example.encode (Example.ascii "\x7b\"value\":2\x7d")]⟩ rfl rfl).1 Example.args rfl,
   (executeActivity_dispatched_message Example.pool Example.ctxNoDetails (some Example.args)).1 rfl⟩

/-- With a nil arguments pointer and at least one heartbeat payload the append
of line 186 dereferences nil: the call panics after it took an id and before it
stored the context, so nothing is dispatched. -/
theorem executeActivity_nil_args_with_heartbeat :
    Example.pool.executeActivity (Example.replyWith []) Example.ctxHeartbeat none =
      (.panic nilDereference, { Example.pool with seqID := 1 }) := by
  rfl

end activity

/-! ## Sequence ids -/

namespace roadrunner_temporal

/-- Below the wrap-around `SedID` returns the counter plus one and stores it. -/
theorem Plugin.SedID_below_wrap (p : Plugin) (trace : Trace) (h : p.seqID + 1 < 2 ^ 64) :
    (p.SedID trace).1 = p.seqID + 1 ∧ (p.SedID trace).2.1 = { p with seqID := p.seqID + 1 } := by
  unfold Plugin.SedID
  rw [Nat.mod_eq_of_lt h]
  exact ⟨rfl, rfl⟩

/-- Below the wrap-around `n` calls of `SedID` issue the `n` numbers that follow
the counter, and leave the counter at the last of them. -/
theorem Plugin.issue_below_wrap (n : Nat) (p : Plugin) (trace : Trace)
    (h : p.seqID + n < 2 ^ 64) :
    (Plugin.issue n p trace).1 = List.range' (p.seqID + 1) n ∧
    (Plugin.issue n p trace).2.1 = { p with seqID := p.seqID + n } := by
  induction n generalizing p trace with
  | zero => simp [Plugin.issue]
  | succ n ih =>
    have h1 : p.seqID + 1 < 2 ^ 64 := by omega
    have hs := Plugin.SedID_below_wrap p trace h1
    have hn : ({ p with seqID := p.seqID + 1 } : Plugin).seqID + n < 2 ^ 64 := by
      show p.seqID + 1 + n < 2 ^ 64
      omega
    have ih' := ih { p with seqID := p.seqID + 1 } (p.SedID trace).2.2 hn
    have hstep : Plugin.issue (n + 1) p trace =
        ((p.SedID trace).1 :: (Plugin.issue n (p.SedID trace).2.1 (p.SedID trace).2.2).1,
          (Plugin.issue n (p.SedID trace).2.1 (p.SedID trace).2.2).2) := rfl
    rw [hstep, hs.1, hs.2]
    refine ⟨?_, ?_⟩
    · show _ :: _ = _
      rw [ih'.1, List.range'_succ]
    · show (Plugin.issue n _ _).2.1 = _
      rw [ih'.2]
      show ({ p with seqID := p.seqID + 1 + n } : Plugin) = _
      congr 1
      omega

end roadrunner_temporal

namespace activity

/-- What `executeActivity` does to the counter before it dispatches: it leaves
it alone and dispatches nothing, or increments it (modulo `2 ^ 64`), and a
message it dispatches carries the new value. -/
theorem executeActivity.prepare_seqID (pool : activityPoolImpl) (ctx : Context)
    (args : Option Payloads) :
    ((executeActivity.prepare pool ctx args).2.seqID = pool.seqID ∧
      ∀ msg, (executeActivity.prepare pool ctx args).1 ≠ .dispatch msg) ∨
    ((executeActivity.prepare pool ctx args).2.seqID = (pool.seqID + 1) % 2 ^ 64 ∧
      ∀ msg, (executeActivity.prepare pool ctx args).1 = .dispatch msg →
        msg.ID = (pool.seqID + 1) % 2 ^ 64) := by
  unfold executeActivity.prepare
  cases hhb : executeActivity.heartbeatDetails ctx with
  | inr err =>
    left
    exact ⟨rfl, fun msg h => by cases h⟩
  | inl hb =>
    right
    by_cases hk : hb.Payloads.length ≠ 0
    · cases args with
      | none =>
        simp only [if_pos hk]
        exact ⟨by first | rfl | trivial, fun msg h => by cases h⟩
      | some a =>
        simp only [if_pos hk]
        refine ⟨by first | rfl | trivial, fun msg h => ?_⟩
        simp only [Prepared.dispatch.injEq] at h
        rw [← h]
    · simp only [if_neg hk]
      refine ⟨by first | rfl | trivial, fun msg h => ?_⟩
      simp only [Prepared.dispatch.injEq] at h
      rw [← h]

/-- After the exchange the counter is what it was when the call dispatched. -/
theorem executeActivity_seqID (x : Exchange) (pool : activityPoolImpl) (ctx : Context)
    (args : Option Payloads) :
    (pool.executeActivity x ctx args).2.seqID = (executeActivity.prepare pool ctx args).2.seqID := by
  unfold activityPoolImpl.executeActivity
  rcases h : executeActivity.prepare pool ctx args with ⟨r, q⟩
  cases r <;> rfl

/-- Below the wrap-around the ids dispatched by a sequence of calls increase
strictly, lie above the counter the sequence started from, and never exceed
the counter the sequence ends with. -/
theorem dispatched_below_wrap (x : Exchange) (calls : List (Context × Option Payloads))
    (pool : activityPoolImpl) (h : pool.seqID + calls.length < 2 ^ 64) :
    List.Pairwise (fun a b => a < b) (pool.dispatched x calls).1 ∧
    (∀ id ∈ (pool.dispatched x calls).1,
      pool.seqID < id ∧ id ≤ (pool.dispatched x calls).2.seqID) ∧
    pool.seqID ≤ (pool.dispatched x calls).2.seqID ∧
    (pool.dispatched x calls).2.seqID ≤ pool.seqID + calls.length := by
  induction calls generalizing pool with
  | nil => simp [activityPoolImpl.dispatched]
  | cons call rest ih =>
    have hlen : pool.seqID + 1 + rest.length < 2 ^ 64 := by
      simp only [List.length_cons] at h
      omega
    have hmod : (pool.seqID + 1) % 2 ^ 64 = pool.seqID + 1 := Nat.mod_eq_of_lt (by omega)
    have hseq := executeActivity_seqID x pool call.1 call.2
    have hstep : pool.dispatched x (call :: rest) =
        (match (executeActivity.prepare pool call.1 call.2).1 with
          | .dispatch msg =>
            (msg.ID :: ((pool.executeActivity x call.1 call.2).2.dispatched x rest).1,
              ((pool.executeActivity x call.1 call.2).2.dispatched x rest).2)
          | _ => ((pool.executeActivity x call.1 call.2).2.dispatched x rest)) := by
      show (match activityPoolImpl.dispatched x (pool.executeActivity x call.1 call.2).2 rest with
        | (ids, final) =>
          match (executeActivity.prepare pool call.1 call.2).1 with
          | .dispatch msg => (msg.ID :: ids, final)
          | _ => (ids, final)) = _
      cases (executeActivity.prepare pool call.1 call.2).1 <;> rfl
    rcases executeActivity.prepare_seqID pool call.1 call.2 with ⟨hs, hno⟩ | ⟨hs, hid⟩
    · have hnext : (pool.executeActivity x call.1 call.2).2.seqID = pool.seqID := by
        rw [hseq, hs]
      have ih' := ih (pool.executeActivity x call.1 call.2).2 (by rw [hnext]; omega)
      have hres : pool.dispatched x (call :: rest) =
          (pool.executeActivity x call.1 call.2).2.dispatched x rest := by
        rw [hstep]
        cases hp : (executeActivity.prepare pool call.1 call.2).1 with
        | dispatch msg => exact absurd hp (hno msg)
        | returned err => rfl
        | panicked r => rfl
      rw [hres]
      rw [hnext] at ih'
      refine ⟨ih'.1, ih'.2.1, ih'.2.2.1, ?_⟩
      simp only [List.length_cons]
      omega
    · have hnext : (pool.executeActivity x call.1 call.2).2.seqID = pool.seqID + 1 := by
        rw [hseq, hs, hmod]
      have ih' := ih (pool.executeActivity x call.1 call.2).2 (by rw [hnext]; omega)
      rw [hnext] at ih'
      cases hp : (executeActivity.prepare pool call.1 call.2).1 with
      | dispatch msg =>
        have hmsg : msg.ID = pool.seqID + 1 := by rw [hid msg hp, hmod]
        have hres : pool.dispatched x (call :: rest) =
            (msg.ID :: ((pool.executeActivity x call.1 call.2).2.dispatched x rest).1,
              ((pool.executeActivity x call.1 call.2).2.dispatched x rest).2) := by
          rw [hstep, hp]
        rw [hres]
        dsimp only
        refine ⟨?_, ?_, ?_, ?_⟩
        · refine List.Pairwise.cons ?_ ih'.1
          intro id hmem
          have := (ih'.2.1 id hmem).1
          omega
        · intro id hmem
          rcases List.mem_cons.mp hmem with rfl | hmem'
          · have := ih'.2.2.1
            exact ⟨by omega, by show msg.ID ≤ _; omega⟩
          · have := ih'.2.1 id hmem'
            exact ⟨by omega, this.2⟩
        · have := ih'.2.2.1
          show pool.seqID ≤ _
          omega
        · have := ih'.2.2.2
          simp only [List.length_cons]
          show _ ≤ pool.seqID + (rest.length + 1)
          omega
      | returned err =>
        have hres : pool.dispatched x (call :: rest) =
            (pool.executeActivity x call.1 call.2).2.dispatched x rest := by
          rw [hstep, hp]
        rw [hres]
        refine ⟨ih'.1, fun id hmem => ⟨by have := (ih'.2.1 id hmem).1; omega, (ih'.2.1 id hmem).2⟩,
          by have := ih'.2.2.1; omega, ?_⟩
        have := ih'.2.2.2
        simp only [List.length_cons]
        omega
      | panicked r =>
        have hres : pool.dispatched x (call :: rest) =
            (pool.executeActivity x call.1 call.2).2.dispatched x rest := by
          rw [hstep, hp]
        rw [hres]
        refine ⟨ih'.1, fun id hmem => ⟨by have := (ih'.2.1 id hmem).1; omega, (ih'.2.1 id hmem).2⟩,
          by have := ih'.2.2.1; omega, ?_⟩
        have := ih'.2.2.2
        simp only [List.length_cons]
        omega

end activity

/-- C7 (amended): as long as the uint64 counter does not wrap (counter plus
number of calls below 2 ^ 64), every call of SedID and every dispatch in
executeActivity returns the previous counter value plus one and stores it as
the new counter value, so the ids of any sequence of calls increase strictly:
each id is greater than all ids issued before it. -/
theorem seqID_increases_below_wrap (p : roadrunner_temporal.Plugin) (trace : Trace) (n : Nat)
    (x : activity.Exchange) (pool : activity.activityPoolImpl)
    (calls : List (activity.Context × Option Payloads))
    (hp : p.seqID + n < 2 ^ 64) (hpool : pool.seqID + calls.length < 2 ^ 64) :
    (p.seqID + 1 < 2 ^ 64 →
      (p.SedID trace).1 = p.seqID + 1 ∧ (p.SedID trace).2.1.seqID = p.seqID + 1) ∧
    (∀ ctx args msg during, pool.seqID + 1 < 2 ^ 64 →
      activity.executeActivity.prepare pool ctx args = (.dispatch msg, during) →
      msg.ID = pool.seqID + 1 ∧ during.seqID = pool.seqID + 1 ∧
      (pool.executeActivity x ctx args).2.seqID = pool.seqID + 1) ∧
    (roadrunner_temporal.Plugin.issue n p trace).1 = List.range' (p.seqID + 1) n ∧
    (roadrunner_temporal.Plugin.issue n p trace).2.1.seqID = p.seqID + n ∧
    List.Pairwise (fun a b => a < b) (roadrunner_temporal.Plugin.issue n p trace).1 ∧
    List.Pairwise (fun a b => a < b) (pool.dispatched x calls).1 ∧
    (∀ id ∈ (pool.dispatched x calls).1,
      pool.seqID < id ∧ id ≤ (pool.dispatched x calls).2.seqID) := by
  have hi := roadrunner_temporal.Plugin.issue_below_wrap n p trace hp
  have hd := activity.dispatched_below_wrap x calls pool hpool
  refine ⟨?_, ?_, hi.1, ?_, ?_, hd.1, hd.2.1⟩
  · intro h1
    have hs := roadrunner_temporal.Plugin.SedID_below_wrap p trace h1
    exact ⟨hs.1, by rw [hs.2]⟩
  · intro ctx args msg during h1 hprep
    have hpd := activity.executeActivity.prepare_dispatch pool ctx args msg during hprep
    have hmod : (pool.seqID + 1) % 2 ^ 64 = pool.seqID + 1 := Nat.mod_eq_of_lt h1
    have hdur : during.seqID = pool.seqID + 1 := by rw [hpd.1]; exact hmod
    refine ⟨by rw [hpd.2, hmod], hdur, ?_⟩
    rw [activity.executeActivity_seqID, hprep]
    exact hdur
  · rw [hi.2]
  · rw [hi.1]
    exact List.pairwise_lt_range' _ _

/-- C7 (amended) on three calls of SedID on a fresh root plugin and two
invocations of `Echo` on a fresh pool: the ids are 1, 2, 3 and 1, 2. -/
theorem seqID_increases_below_wrap_witness :
    (roadrunner_temporal.Plugin.issue 3 (Example.root 0) []).1 = [1, 2, 3] ∧
    (Example.pool.dispatched (Example.replyWith [Example.success Example.args])
      [(Example.ctx, some Example.args), (Example.ctx, some Example.args)]).1 = [1, 2] ∧
    List.Pairwise (fun a b => a < b)
      (Example.pool.dispatched (Example.replyWith [Example.success Example.args])
        [(Example.ctx, some Example.args), (Example.ctx, some Example.args)]).1 :=
  ⟨(seqID_increases_below_wrap (Example.root 0) [] 3
      (Example.replyWith [Example.success Example.args]) Example.pool
      [(Example.ctx, some Example.args), (Example.ctx, some Example.args)]
      (by decide) (by decide)).2.2.1,
    by decide,
    (seqID_increases_below_wrap (Example.root 0) [] 3
      (Example.replyWith [Example.success Example.args]) Example.pool
      [(Example.ctx, some Example.args), (Example.ctx, some Example.args)]
      (by decide) (by decide)).2.2.2.2.2.1⟩

/-- C7 as stated fails where the counter wraps: 2 ^ 64 - 1 calls of SedID on a
fresh root plugin leave the counter at 2 ^ 64 - 1, the id of the last of them;
the next call returns 0, and so does the next dispatch of a pool whose counter
is there. Neither is the previous value plus one, nor greater than the ids
issued before. -/
theorem seqID_wraps_to_zero :
    (roadrunner_temporal.Plugin.issue (2 ^ 64 - 1) (Example.root 0) []).2.1 =
      Example.root (2 ^ 64 - 1) ∧
    ((Example.root (2 ^ 64 - 1)).SedID []).1 = 0 ∧
    (roadrunner_temporal.Plugin.issue 2 (Example.root (2 ^ 64 - 2)) []).1 = [2 ^ 64 - 1, 0] ∧
    ¬ List.Pairwise (fun a b => a < b)
      (roadrunner_temporal.Plugin.issue 2 (Example.root (2 ^ 64 - 2)) []).1 ∧
    (activity.executeActivity.prepare { Example.pool with seqID := 2 ^ 64 - 1 } Example.ctx
      (some Example.args)).1 = .dispatch { Example.message with ID := 0 } := by
  refine ⟨?_, by decide, by decide, by decide, by decide⟩
  have h := (roadrunner_temporal.Plugin.issue_below_wrap (2 ^ 64 - 1) (Example.root 0) []
    (by decide)).2
  rw [h]
  rfl

/-! ## The counter across pool generations -/

namespace activity

theorem initWorkers.register_seqID (w : Worker) (as : List ActivityInfo)
    (pool : activityPoolImpl) (trace : Trace) :
    (initWorkers.register w as pool trace).1.seqID = pool.seqID := by
  induction as generalizing pool trace with
  | nil => rfl
  | cons a rest ih =>
    show (initWorkers.register w rest _ _).1.seqID = _
    rw [ih]

theorem initWorkers.loop_seqID (t : Temporal) (wis : List WorkerInfo) (pool : activityPoolImpl)
    (trace : Trace) : (initWorkers.loop t wis pool trace).2.1.seqID = pool.seqID := by
  induction wis generalizing pool trace with
  | nil => rfl
  | cons wi rest ih =>
    unfold initWorkers.loop
    simp only []
    split
    · rfl
    · rw [ih, initWorkers.register_seqID]

/-- When `CreateWorker` fails, `initWorkers` returns the error of
`errors.E(op, err, pool.Destroy(ctx))`. Since `Destroy` returns nil, that is
the "unknown type" error of `errors.E`, of which neither `op` nor `err` is a
part. -/
theorem initWorkers.loop_CreateWorker_error (t : Temporal) (wi : WorkerInfo)
    (rest : List WorkerInfo) (pool : activityPoolImpl) (trace : Trace) (err : GoError)
    (h : t.CreateWorker trace wi.TaskQueue
      { wi.Options with WorkerStopTimeout := pool.graceTimeout } = .inr err) :
    (initWorkers.loop t (wi :: rest) pool trace).1 = some (.unknownType "<nil>" "<nil>") := by
  unfold initWorkers.loop
  simp only [h]
  rfl

/-- A pool that `newActivityPool` creates has its counter at 0. -/
theorem newActivityPool_seqID (t : Temporal) (codec : Codec) (trace trace₁ : Trace)
    (pool : activityPoolImpl) (h : newActivityPool t codec trace = (.inl pool, trace₁)) :
    pool.seqID = 0 := by
  unfold newActivityPool at h
  simp only [] at h
  split at h
  · simp at h
  · simp only [Prod.mk.injEq, Sum.inl.injEq] at h
    rw [← h.1]

/-- Method `Start` does not touch the counter of the pool. -/
theorem activityPoolImpl.Start_seqID (t : Temporal) (pool : activityPoolImpl) (trace : Trace) :
    (pool.Start t trace).2.1.seqID = pool.seqID := by
  have hinit : ∀ q : activityPoolImpl, ∀ tr : Trace,
      (activityPoolImpl.initWorkers t q tr).2.1.seqID = q.seqID := by
    intro q tr
    unfold activityPoolImpl.initWorkers
    cases t.FetchWorkerInfo tr q.codec q.wp t.GetDataConverter with
    | inr err => rfl
    | inl workerInfo =>
      simp only []
      rw [initWorkers.loop_seqID]
  have h := hinit { pool with dc := some t.GetDataConverter } trace
  unfold activityPoolImpl.Start
  rcases hr : activityPoolImpl.initWorkers t { pool with dc := some t.GetDataConverter } trace
    with ⟨err, pool₁, trace₁⟩
  rw [hr] at h
  cases err with
  | some e => exact h
  | none => exact h

/-- A pool that `startPool` hands out has issued no id: its counter is 0. -/
theorem Plugin.startPool_seqID (t : Temporal) (p : Plugin) (trace trace₁ : Trace)
    (pool : activityPoolImpl) (h : p.startPool t trace = (.inl pool, trace₁)) :
    pool.seqID = 0 := by
  unfold Plugin.startPool at h
  rcases hn : newActivityPool t t.GetCodec trace with ⟨r, trace₂⟩
  rw [hn] at h
  cases r with
  | inr err => simp at h
  | inl q =>
    have hq := newActivityPool_seqID t t.GetCodec trace trace₂ q hn
    have hs := activityPoolImpl.Start_seqID t q trace₂
    simp only [] at h
    rcases hr : q.Start t trace₂ with ⟨err, pool₁, trace₃⟩
    rw [hr] at h hs
    cases err with
    | some e => simp at h
    | none =>
      simp only [Prod.mk.injEq, Sum.inl.injEq] at h
      rw [← h.1]
      show pool₁.seqID = 0
      rw [← hq]
      exact hs

/-- When `replacePool` returns nil the current pool is one that `startPool`
just handed out. -/
theorem Plugin.replacePool_installs (t : Temporal) (p : Plugin) (trace : Trace)
    (h : (p.replacePool t trace).1 = .ret none) :
    ∃ pool trace₁, p.startPool t trace = (.inl pool, trace₁) ∧
      (p.replacePool t trace).2.1.pool = some pool := by
  unfold Plugin.replacePool at h ⊢
  rcases hs : p.startPool t trace with ⟨r, trace₁⟩
  rw [hs] at h
  cases r with
  | inr err => simp at h
  | inl pool =>
    refine ⟨pool, trace₁, rfl, ?_⟩
    cases hp : p.pool with
    | none => simp [hp] at h
    | some previous =>
      simp only []
      cases hd : previous.Destroy (trace₁ ++ [.LogDebug "replace activity pool"]) with
      | mk err trace₂ => cases err <;> rfl

end activity

namespace roadrunner_temporal

/-- Method `Reset` of the root plugin leaves `seqID` as it was. -/
theorem Plugin.Reset_seqID (c : Collaborators) (p : Plugin) (trace : Trace) :
    (p.Reset c trace).2.1.seqID = p.seqID := by
  unfold Plugin.Reset
  simp only []
  split
  · rfl
  · split
    · rfl
    · split
      · rfl
      · split
        · rfl
        · split <;> rfl

end roadrunner_temporal

/-- C8 (amended): in the activity bridge the counter belongs to the pool
generation. When replacePool succeeds, the pool it installs has its counter at
0, so the first message id that executeActivity issues on it is 1, whatever
ids the previous generation issued; the root Plugin.Reset leaves seqID
unchanged. -/
theorem replacePool_restarts_seqID (t : activity.Temporal) (p : activity.Plugin) (trace : Trace)
    (c : roadrunner_temporal.Collaborators) (root : roadrunner_temporal.Plugin)
    (rootTrace : Trace) (h : (p.replacePool t trace).1 = .ret none) :
    (∃ pool, (p.replacePool t trace).2.1.pool = some pool ∧ pool.seqID = 0 ∧
      ∀ ctx args msg during,
        activity.executeActivity.prepare pool ctx args = (.dispatch msg, during) → msg.ID = 1) ∧
    (root.Reset c rootTrace).2.1.seqID = root.seqID := by
  refine ⟨?_, roadrunner_temporal.Plugin.Reset_seqID c root rootTrace⟩
  obtain ⟨pool, trace₁, hstart, hpool⟩ := activity.Plugin.replacePool_installs t p trace h
  have hzero := activity.Plugin.startPool_seqID t p trace trace₁ pool hstart
  refine ⟨pool, hpool, hzero, ?_⟩
  intro ctx args msg during hprep
  rw [(activity.executeActivity.prepare_dispatch pool ctx args msg during hprep).2, hzero]
  rfl

/-- C8 (amended) on a plugin whose first generation has issued the ids 1 and 2:
replacePool installs `generation2`, whose counter is 0. -/
theorem replacePool_restarts_seqID_witness :
    (Example.plugin.replacePool Example.temporal []).1 = .ret none ∧
    ∃ pool, (Example.plugin.replacePool Example.temporal []).2.1.pool = some pool ∧
      pool.seqID = 0 ∧
      ∀ ctx args msg during,
        activity.executeActivity.prepare pool ctx args = (.dispatch msg, during) → msg.ID = 1 :=
  ⟨rfl, (replacePool_restarts_seqID Example.temporal Example.plugin []
    Example.collaborators (Example.root 0) [] rfl).1⟩

/-- C8 as stated fails in the activity bridge: the first generation issued the
ids 1 and 2 and ends as `generation1`; replacePool then succeeds and installs
`generation2`, and the first message dispatched on it has the id 1 again,
which is not greater than 2. -/
theorem replacePool_first_id_not_greater :
    Example.pool.dispatched (Example.replyWith [Example.success Example.args])
      [(Example.ctx, some Example.args), (Example.ctx, some Example.args)] =
      ([1, 2], Example.generation1) ∧
    (Example.plugin.replacePool Example.temporal []).1 = .ret none ∧
    (Example.plugin.replacePool Example.temporal []).2.1.pool = some Example.generation2 ∧
    (activity.executeActivity.prepare Example.generation2 Example.ctx (some Example.args)).1 =
      .dispatch Example.message ∧
    Example.message.ID = 1 ∧ ¬ (2 < Example.message.ID) := by
  refine ⟨by decide, by decide, by decide, by decide, by decide, by decide⟩

/-! ## Errors of the parser, timers, the start command -/

namespace workflow

/-- C11: for each of the three known command names, when the payload cannot be
decoded parseCommand returns the decoder's error and no command, and when the
conversion step (ExecuteActivity, CompleteWorkflow) returns an error
parseCommand returns that error and no command. -/
theorem parseCommand_returns_decode_and_conversion_errors (json : JsonDecoder)
    (impl : ToPayloadImpl) (dc : DataConverter) (params : RawMessage) :
    (∀ err, json.ExecuteActivity params = .inr err →
      parseCommand json impl dc ExecuteActivityCommand params = .ret (.error err)) ∧
    (∀ err, json.NewTimer params = .inr err →
      parseCommand json impl dc NewTimerCommand params = .ret (.error err)) ∧
    (∀ err, json.CompleteWorkflow params = .inr err →
      parseCommand json impl dc CompleteWorkflowCommand params = .ret (.error err)) ∧
    (∀ cmd err ptr, json.ExecuteActivity params = .inl cmd →
      ToPayload impl dc cmd.Args cmd.ArgsPayload = .ret (some err, ptr) →
      parseCommand json impl dc ExecuteActivityCommand params = .ret (.error err)) ∧
    (∀ cmd err ptr, json.CompleteWorkflow params = .inl cmd →
      ToPayload impl dc cmd.Result cmd.ResultPayload = .ret (some err, ptr) →
      parseCommand json impl dc CompleteWorkflowCommand params = .ret (.error err)) := by
  have e₁ : NewTimerCommand ≠ ExecuteActivityCommand := by decide
  have e₂ : CompleteWorkflowCommand ≠ ExecuteActivityCommand := by decide
  have e₃ : CompleteWorkflowCommand ≠ NewTimerCommand := by decide
  refine ⟨?_, ?_, ?_, ?_, ?_⟩
  · intro err h
    simp only [parseCommand, if_true, h]
  · intro err h
    simp only [parseCommand, if_neg e₁, if_true, h]
  · intro err h
    simp only [parseCommand, if_neg e₂, if_neg e₃, if_true, h]
  · intro cmd err ptr h hconv
    simp only [parseCommand, if_true, h, hconv]
  · intro cmd err ptr h hconv
    simp only [parseCommand, if_neg e₂, if_neg e₃, if_true, h, hconv]

/-- C11 on the empty payload, which no command decodes, and on a valid payload
whose conversion fails: the error comes back each time. -/
theorem parseCommand_returns_decode_and_conversion_errors_witness :
    parseCommand Example.json Example.toPayload Example.dc NewTimerCommand [] =
      .ret (.error (.foreign "json: cannot unmarshal")) ∧
    parseCommand Example.json Example.toPayloadFailing Example.dc ExecuteActivityCommand
      Example.executeActivityParams = .ret (.error (.foreign "unable to encode")) :=
  ⟨(parseCommand_returns_decode_and_conversion_errors Example.json Example.toPayload Example.dc
      []).2.1 (.foreign "json: cannot unmarshal") rfl,
    (parseCommand_returns_decode_and_conversion_errors Example.json Example.toPayloadFailing
      Example.dc Example.executeActivityParams).2.2.2.1 Example.executeActivityDecoded
      (.foreign "unable to encode") none rfl rfl⟩

/-- An `int64` holds a result that lies in its range unchanged. -/
theorem wrapInt64_of_range (x : Int) (h₁ : -2 ^ 63 ≤ x) (h₂ : x < 2 ^ 63) : wrapInt64 x = x := by
  unfold wrapInt64
  omega

/-- C12 (amended): for every NewTimer command whose Milliseconds lies between
-9223372036854 and 9223372036854, ToDuration returns exactly Milliseconds x
1,000,000 nanoseconds, converting that duration back to whole milliseconds
gives Milliseconds again, and ToDuration is monotone on that range. -/
theorem ToDuration_exact_in_range (t t' : NewTimer)
    (h₁ : -9223372036854 ≤ t.Milliseconds) (h₂ : t.Milliseconds ≤ 9223372036854)
    (h₁' : -9223372036854 ≤ t'.Milliseconds) (h₂' : t'.Milliseconds ≤ 9223372036854) :
    t.ToDuration = t.Milliseconds * 1000000 ∧
    Duration.Milliseconds t.ToDuration = t.Milliseconds ∧
    (t.Milliseconds ≤ t'.Milliseconds → t.ToDuration ≤ t'.ToDuration) := by
  have hd : ∀ u : NewTimer, -9223372036854 ≤ u.Milliseconds → u.Milliseconds ≤ 9223372036854 →
      u.ToDuration = u.Milliseconds * 1000000 := by
    intro u hu₁ hu₂
    unfold NewTimer.ToDuration Millisecond
    rw [wrapInt64_of_range u.Milliseconds (by omega) (by omega),
      wrapInt64_of_range (1000000 * u.Milliseconds) (by omega) (by omega)]
    omega
  refine ⟨hd t h₁ h₂, ?_, ?_⟩
  · rw [hd t h₁ h₂]
    unfold Duration.Milliseconds
    exact Int.mul_tdiv_cancel _ (by decide)
  · intro hle
    rw [hd t h₁ h₂, hd t' h₁' h₂']
    omega

/-- C12 (amended) on timers of 5 and of 2000 milliseconds. -/
theorem ToDuration_exact_in_range_witness :
    NewTimer.ToDuration ⟨5⟩ = 5000000 ∧
    Duration.Milliseconds (NewTimer.ToDuration ⟨5⟩) = 5 ∧
    NewTimer.ToDuration ⟨5⟩ ≤ NewTimer.ToDuration ⟨2000⟩ :=
  have h := ToDuration_exact_in_range ⟨5⟩ ⟨2000⟩ (by decide) (by decide) (by decide) (by decide)
  ⟨h.1, h.2.1, h.2.2 (by decide)⟩

/-- C12 as stated fails beyond that range: for 9223372036855 milliseconds the
`int64` product wraps to a negative duration, which is not Milliseconds x
1,000,000, converts back to -9223372036854 and lies below the duration of a
timer of 0 milliseconds. -/
theorem ToDuration_wraps :
    NewTimer.ToDuration ⟨9223372036855⟩ = -9223372036854551616 ∧
    NewTimer.ToDuration ⟨9223372036855⟩ ≠ 9223372036855 * 1000000 ∧
    Duration.Milliseconds (NewTimer.ToDuration ⟨9223372036855⟩) = -9223372036854 ∧
    ¬ (NewTimer.ToDuration ⟨0⟩ ≤ NewTimer.ToDuration ⟨9223372036855⟩) := by
  refine ⟨by decide, by decide, by decide, by decide⟩

/-- C13: FromEnvironment sets Name, Wid, Rid and TaskQueue to the workflow type
name, the execution id, the run id and the task queue name of the
environment's workflow info, whatever the conversion of the input then does;
when `rrt.FromPayload` returns, Input is what it stored for the given input
payloads and the error returned is its error. -/
theorem FromEnvironment_populates (impl : FromPayloadImpl) (start : StartWorkflow)
    (env : WorkflowEnvironment) (input : Option Payloads) :
    (start.FromEnvironment impl env input).2.Name = env.WorkflowInfo.WorkflowType.Name ∧
    (start.FromEnvironment impl env input).2.Wid = env.WorkflowInfo.WorkflowExecution.ID ∧
    (start.FromEnvironment impl env input).2.Rid = env.WorkflowInfo.WorkflowExecution.RunID ∧
    (start.FromEnvironment impl env input).2.TaskQueue = env.WorkflowInfo.TaskQueueName ∧
    (∀ err values, impl.run env.GetDataConverter input start.Input = .ret (err, values) →
      start.FromEnvironment impl env input =
        (.ret err,
          { Name := env.WorkflowInfo.WorkflowType.Name
            Wid := env.WorkflowInfo.WorkflowExecution.ID
            Rid := env.WorkflowInfo.WorkflowExecution.RunID
            TaskQueue := env.WorkflowInfo.TaskQueueName
            Input := values })) := by
  unfold StartWorkflow.FromEnvironment
  cases h : impl.run env.GetDataConverter input start.Input with
  | panic r => simp [h]
  | ret out =>
    obtain ⟨err, values⟩ := out
    simp [h]

/-- C13 on a start with one input payload, and on one whose conversion fails:
the four fields are filled in both. -/
theorem FromEnvironment_populates_witness :
    Example.start.FromEnvironment Example.fromPayload Example.env (some Example.args) =
      (.ret none,
        { Name := "SimpleWorkflow", Wid := "wf-1", Rid := "run-1", TaskQueue := "default",
          Input := [Example.ascii "\"hi\""] }) ∧
    Example.start.FromEnvironment Example.fromPayload Example.env none =
      (.ret (some (.foreign "no payloads")),
        { Name := "SimpleWorkflow", Wid := "wf-1", Rid := "run-1", TaskQueue := "default",
          Input := [] }) :=
  ⟨(FromEnvironment_populates Example.fromPayload Example.start Example.env
      (some Example.args)).2.2.2.2 none [Example.ascii "\"hi\""] rfl,
    (FromEnvironment_populates Example.fromPayload Example.start Example.env
      none).2.2.2.2 (some (.foreign "no payloads")) [] rfl⟩

end workflow

/-! ## Catalogue discovery -/

namespace activity

/-- The inner loop of `initWorkers` appends the names of one task-queue entry,
in their order. -/
theorem initWorkers.register_activities (w : Worker) (as : List ActivityInfo)
    (pool : activityPoolImpl) (trace : Trace) :
    (initWorkers.register w as pool trace).1.activities =
      pool.activities ++ as.map (fun a => a.Name) := by
  induction as generalizing pool trace with
  | nil => simp [initWorkers.register]
  | cons a rest ih =>
    show (initWorkers.register w rest _ _).1.activities = _
    rw [ih]
    simp

/-- When the outer loop of `initWorkers` ends without error it has appended the
names of all entries, entry by entry. -/
theorem initWorkers.loop_activities (t : Temporal) (wis : List WorkerInfo)
    (pool : activityPoolImpl) (trace : Trace)
    (h : (initWorkers.loop t wis pool trace).1 = none) :
    (initWorkers.loop t wis pool trace).2.1.activities =
      pool.activities ++ wis.flatMap (fun wi => wi.Activities.map (fun a => a.Name)) := by
  induction wis generalizing pool trace with
  | nil => simp [initWorkers.loop]
  | cons wi rest ih =>
    unfold initWorkers.loop at h ⊢
    simp only [] at h ⊢
    split at h
    · simp at h
    · rw [ih _ _ h, initWorkers.register_activities]
      simp [List.flatMap_cons]

/-- C14: after a successful catalogue discovery, ActivityNames() returns exactly
the activity names of the fetched worker info, concatenated in advertised order
over all task-queue entries: a name is in the list if and only if some entry
advertises it. -/
theorem initWorkers_ActivityNames (t : Temporal) (pool : activityPoolImpl) (trace : Trace)
    (workerInfo : List WorkerInfo)
    (hfetch : t.FetchWorkerInfo trace pool.codec pool.wp t.GetDataConverter = .inl workerInfo)
    (hok : (pool.initWorkers t trace).1 = none) :
    (pool.initWorkers t trace).2.1.ActivityNames =
      workerInfo.flatMap (fun wi => wi.Activities.map (fun a => a.Name)) ∧
    ∀ name, name ∈ (pool.initWorkers t trace).2.1.ActivityNames ↔
      ∃ wi ∈ workerInfo, ∃ a ∈ wi.Activities, a.Name = name := by
  have hnames : (pool.initWorkers t trace).2.1.ActivityNames =
      workerInfo.flatMap (fun wi => wi.Activities.map (fun a => a.Name)) := by
    unfold activityPoolImpl.initWorkers at hok ⊢
    rw [hfetch] at hok ⊢
    simp only [] at hok ⊢
    unfold activityPoolImpl.ActivityNames
    rw [initWorkers.loop_activities t workerInfo _ _ hok]
    rfl
  refine ⟨hnames, fun name => ?_⟩
  rw [hnames]
  simp [List.mem_flatMap]

/-- C14 on a worker that advertises `A.foo` and `A.bar` on one task queue and
`B.baz` on another. -/
theorem initWorkers_ActivityNames_witness :
    (Example.pool.initWorkers Example.temporalCatalogue []).2.1.ActivityNames =
      ["A.foo", "A.bar", "B.baz"] :=
  (initWorkers_ActivityNames Example.temporalCatalogue Example.pool [] Example.catalogue
    rfl rfl).1

/-! ## Replacing the pool -/

/-- Method `replacePool` is `replacePoolWith` at the `Destroy` of
`activityPoolImpl`, the one implementation of `activityPool`. -/
theorem Plugin.replacePool_eq (t : Temporal) (p : Plugin) (trace : Trace) :
    p.replacePool t trace = p.replacePoolWith (fun _ previous tr => previous.Destroy tr) t trace := by
  unfold Plugin.replacePool Plugin.replacePoolWith
  rfl

/-- C15: when the new pool started and a previous generation is current,
replacePool returns nil and the new pool is current afterwards, whatever
`Destroy` of the previous pool returns; `Destroy` is called on the previous
pool once the plugin already refers to the new pool and the new pool has been
started, and an error it returns ends in the log only. With the `Destroy` of
`activityPoolImpl` the trace ends with the stops of the previous handles and
the destruction of the previous worker pool. -/
theorem replacePool_destroys_previous_after_swap
    (destroy : Plugin → activityPoolImpl → Trace → Option GoError × Trace)
    (t : Temporal) (p : Plugin) (trace trace₁ : Trace) (pool previous : activityPoolImpl)
    (hstart : p.startPool t trace = (.inl pool, trace₁)) (hprev : p.pool = some previous) :
    (p.replacePoolWith destroy t trace).1 = .ret none ∧
    (p.replacePoolWith destroy t trace).2.1 = { p with pool := some pool } ∧
    (p.replacePoolWith destroy t trace).2.2 =
      (destroy { p with pool := some pool } previous
          (trace₁ ++ [.LogDebug "replace activity pool"])).2 ++
        (match (destroy { p with pool := some pool } previous
            (trace₁ ++ [.LogDebug "replace activity pool"])).1 with
          | some err =>
            [.LogError "Unable to destroy expired activity pool"
              (.E "activity_plugin_replace_pool" err)]
          | none => []) ∧
    p.replacePool t trace =
      (.ret none, { p with pool := some pool },
        trace₁ ++ [.LogDebug "replace activity pool"] ++
          previous.tWorkers.map Event.WorkerStop ++ [.PoolDestroy previous.wp]) := by
  have hwith : ∀ d : Plugin → activityPoolImpl → Trace → Option GoError × Trace,
      p.replacePoolWith d t trace =
        (.ret none, { p with pool := some pool },
          (d { p with pool := some pool } previous
              (trace₁ ++ [.LogDebug "replace activity pool"])).2 ++
            (match (d { p with pool := some pool } previous
                (trace₁ ++ [.LogDebug "replace activity pool"])).1 with
              | some err =>
                [.LogError "Unable to destroy expired activity pool"
                  (.E "activity_plugin_replace_pool" err)]
              | none => [])) := by
    intro d
    unfold Plugin.replacePoolWith
    rw [hstart]
    simp only [hprev]
    rcases hd : d { p with pool := some pool } previous
      (trace₁ ++ [.LogDebug "replace activity pool"]) with ⟨err, trace₂⟩
    cases err <;> simp [hd]
  refine ⟨by rw [hwith destroy], by rw [hwith destroy], by rw [hwith destroy], ?_⟩
  rw [Plugin.replacePool_eq, hwith]
  simp [activityPoolImpl.Destroy]

/-- C15 on the plugin whose first generation is current, with a `Destroy` that
fails: replacePool returns nil and `generation2` is current. -/
theorem replacePool_destroys_previous_after_swap_witness :
    (Example.plugin.replacePoolWith Example.destroyFailing Example.temporal []).1 = .ret none ∧
    (Example.plugin.replacePoolWith Example.destroyFailing Example.temporal []).2.1 =
      { Example.plugin with pool := some Example.generation2 } :=
  have h := replacePool_destroys_previous_after_swap Example.destroyFailing Example.temporal
    Example.plugin [] (Example.plugin.startPool Example.temporal []).2 Example.generation2
    Example.generation1 rfl rfl
  ⟨h.1, h.2.1⟩

/-- Without a previous generation (the state `Stop` leaves behind) the call
`previous.Destroy` of line 207 is made on a nil interface: replacePool panics,
after it installed the new pool. -/
theorem nil_pool_replacePool_panics :
    ({ Example.plugin with pool := none } : Plugin).replacePool Example.temporal [] =
      (.panic nilDereference, { Example.plugin with pool := some Example.generation2 },
        (Example.plugin.startPool Example.temporal []).2 ++
          [.LogDebug "replace activity pool"]) := by
  decide

/-- How `startPool` fails: with the error of `newActivityPool`, or with the
error of `Start` on the pool just created. -/
theorem Plugin.startPool_failure (t : Temporal) (p : Plugin) (trace : Trace) :
    (∀ e trace₀, newActivityPool t t.GetCodec trace = (.inr e, trace₀) →
      p.startPool t trace = (.inr (.E "newActivityPool" e), trace₀)) ∧
    (∀ q trace₀ e q' trace₁, newActivityPool t t.GetCodec trace = (.inl q, trace₀) →
      q.Start t trace₀ = (some e, q', trace₁) →
      p.startPool t trace = (.inr (.E "startActivityPool" e), trace₁)) ∧
    (∀ pool trace₂, p.startPool t trace = (.inl pool, trace₂) →
      ∃ q trace₀ trace₁, newActivityPool t t.GetCodec trace = (.inl q, trace₀) ∧
        q.Start t trace₀ = (none, pool, trace₁)) := by
  refine ⟨?_, ?_, ?_⟩
  · intro e trace₀ h
    simp [Plugin.startPool, h]
  · intro q trace₀ e q' trace₁ h hs
    simp [Plugin.startPool, h, hs]
  · intro pool trace₂ h
    unfold Plugin.startPool at h
    rcases hn : newActivityPool t t.GetCodec trace with ⟨r, trace₀⟩
    rw [hn] at h
    cases r with
    | inr e => simp at h
    | inl q =>
      simp only [] at h
      rcases hs : q.Start t trace₀ with ⟨err, pool₁, trace₁⟩
      rw [hs] at h
      cases err with
      | some e => simp at h
      | none =>
        simp only [Prod.mk.injEq, Sum.inl.injEq] at h
        exact ⟨q, trace₀, trace₁, rfl, by rw [← h.1]; exact hs⟩

/-- C16: if creating the replacement pool fails, or starting it fails,
replacePool returns an error and leaves the plugin as it was, the current pool
included, and does not call `Destroy` on the current pool (the outcome does not
depend on what that `Destroy` would do); whenever the current pool is another
one afterwards, it is a pool that `newActivityPool` created and whose `Start`
returned nil. -/
theorem replacePool_failure_keeps_current
    (destroy : Plugin → activityPoolImpl → Trace → Option GoError × Trace)
    (t : Temporal) (p : Plugin) (trace : Trace) :
    (∀ e trace₀, newActivityPool t t.GetCodec trace = (.inr e, trace₀) →
      p.replacePoolWith destroy t trace =
        (.ret (some (.E "activity_plugin_replace_pool" (.E "newActivityPool" e))), p,
          trace₀ ++ [.LogError "replace activity pool failed" (.E "newActivityPool" e)])) ∧
    (∀ q trace₀ e q' trace₁, newActivityPool t t.GetCodec trace = (.inl q, trace₀) →
      q.Start t trace₀ = (some e, q', trace₁) →
      p.replacePoolWith destroy t trace =
        (.ret (some (.E "activity_plugin_replace_pool" (.E "startActivityPool" e))), p,
          trace₁ ++ [.LogError "replace activity pool failed" (.E "startActivityPool" e)])) ∧
    ((p.replacePoolWith destroy t trace).2.1 = p ∨
      ∃ q trace₀ pool trace₁, newActivityPool t t.GetCodec trace = (.inl q, trace₀) ∧
        q.Start t trace₀ = (none, pool, trace₁) ∧
        (p.replacePoolWith destroy t trace).2.1 = { p with pool := some pool }) ∧
    p.replacePool t trace = p.replacePoolWith (fun _ previous tr => previous.Destroy tr) t trace := by
  have hf := Plugin.startPool_failure t p trace
  refine ⟨?_, ?_, ?_, Plugin.replacePool_eq t p trace⟩
  · intro e trace₀ h
    simp [Plugin.replacePoolWith, hf.1 e trace₀ h]
  · intro q trace₀ e q' trace₁ h hs
    simp [Plugin.replacePoolWith, hf.2.1 q trace₀ e q' trace₁ h hs]
  · rcases hs : p.startPool t trace with ⟨r, trace₂⟩
    cases r with
    | inr err =>
      left
      simp [Plugin.replacePoolWith, hs]
    | inl pool =>
      right
      obtain ⟨q, trace₀, trace₁, hn, hst⟩ := hf.2.2 pool trace₂ hs
      refine ⟨q, trace₀, pool, trace₁, hn, hst, ?_⟩
      unfold Plugin.replacePoolWith
      rw [hs]
      cases hp : p.pool with
      | none => rfl
      | some previous =>
        simp only []
        rcases hd : destroy { p with pool := some pool } previous
          (trace₂ ++ [.LogDebug "replace activity pool"]) with ⟨err, trace₃⟩
        cases err <;> simp [hd]

/-- C16 on a replacement that cannot be created and on one whose handles do not
start: the first generation stays current. -/
theorem replacePool_failure_keeps_current_witness :
    (Example.plugin.replacePool Example.temporalNoPool []).1 =
      .ret (some (.E "activity_plugin_replace_pool"
        (.E "newActivityPool" (.E "new_activity_pool" (.foreign "no workers"))))) ∧
    (Example.plugin.replacePool Example.temporalNoPool []).2.1 = Example.plugin ∧
    (Example.plugin.replacePool Example.temporalNoStart []).2.1 = Example.plugin := by
  have h := replacePool_failure_keeps_current (fun _ previous tr => previous.Destroy tr)
    Example.temporalNoPool Example.plugin []
  have h' := replacePool_failure_keeps_current (fun _ previous tr => previous.Destroy tr)
    Example.temporalNoStart Example.plugin []
  refine ⟨?_, ?_, ?_⟩
  · rw [h.2.2.2, h.1 (.E "new_activity_pool" (.foreign "no workers")) _ rfl]
  · rw [h.2.2.2, h.1 (.E "new_activity_pool" (.foreign "no workers")) _ rfl]
  · rw [h'.2.2.2]
    decide

end activity

/-! ## Stopping and resetting the root plugin -/

namespace roadrunner_temporal

/-- C17 (amended): Stop, called on a plugin that is subscribed to the event
bus, unsubscribes and signals the control loop, then stops every
orchestrator-side worker handle, then releases the external connections: it
closes the metrics closer if there is one and, that close having returned no
error, the orchestrator client if there is one; it returns nil. It tears down
neither worker pool: the trace gains no destruction or reset of a pool, and
`actP` and `wfP` are as before. Stopping the handles and then destroying the
worker pool is what `activityPoolImpl.Destroy` does for its own pool. -/
theorem Stop_stops_workers_then_closes (close : Trace → Option GoError) (p : Plugin)
    (trace : Trace) (bus : EventBus) (pool : activity.activityPoolImpl) (poolTrace : Trace)
    (hbus : p.eventBus = some bus)
    (hclose : p.tallyCloser = none ∨
      close (trace ++ [.Unsubscribe, .StopSignal] ++ p.workers.map Event.WorkerStop) = none) :
    p.Stop close trace =
      (.ret none, { p with eventBus := none },
        trace ++ [.Unsubscribe, .StopSignal] ++ p.workers.map Event.WorkerStop
          ++ (if p.tallyCloser.isSome then [Event.TallyClose] else [])
          ++ (if p.client.isSome then [Event.ClientClose] else [])) ∧
    (∀ wp, (Event.PoolDestroy wp ∈ (p.Stop close trace).2.2 → Event.PoolDestroy wp ∈ trace) ∧
      (Event.PoolReset wp ∈ (p.Stop close trace).2.2 → Event.PoolReset wp ∈ trace)) ∧
    (p.Stop close trace).2.1.actP = p.actP ∧ (p.Stop close trace).2.1.wfP = p.wfP ∧
    pool.Destroy poolTrace =
      (none, poolTrace ++ pool.tWorkers.map Event.WorkerStop ++ [.PoolDestroy pool.wp]) := by
  have hstop : p.Stop close trace =
      (.ret none, { p with eventBus := none },
        trace ++ [.Unsubscribe, .StopSignal] ++ p.workers.map Event.WorkerStop
          ++ (if p.tallyCloser.isSome then [Event.TallyClose] else [])
          ++ (if p.client.isSome then [Event.ClientClose] else [])) := by
    unfold Plugin.Stop
    rw [hbus]
    simp only []
    cases hc : p.tallyCloser with
    | none => cases hcl : p.client <;> simp
    | some closer =>
      rcases hclose with h | h
      · rw [hc] at h
        cases h
      · rw [h]
        cases hcl : p.client <;> simp
  refine ⟨hstop, ?_, by rw [hstop], by rw [hstop], rfl⟩
  intro wp
  rw [hstop]
  constructor
  · intro h
    simp only [List.mem_append, List.mem_cons, List.mem_map, List.mem_singleton] at h
    rcases h with (((h | h) | h) | h) | h
    · exact h
    · simp at h
    · simp at h
    · split at h <;> simp at h
    · split at h <;> simp at h
  · intro h
    simp only [List.mem_append, List.mem_cons, List.mem_map, List.mem_singleton] at h
    rcases h with (((h | h) | h) | h) | h
    · exact h
    · simp at h
    · simp at h
    · split at h <;> simp at h
    · split at h <;> simp at h

/-- C17 (amended) on a serving plugin with two handles, a metrics closer and a
client. -/
theorem Stop_stops_workers_then_closes_witness :
    Example.rootServing.Stop (fun _ => none) [] =
      (.ret none, { Example.rootServing with eventBus := none },
        [.Unsubscribe, .StopSignal, .WorkerStop ⟨1⟩, .WorkerStop ⟨2⟩, .TallyClose,
          .ClientClose]) :=
  (Stop_stops_workers_then_closes (fun _ => none) Example.rootServing [] ⟨1⟩ Example.pool []
    rfl (Or.inr rfl)).1

/-- C17 as stated fails: Stop on a serving plugin with the activity pool 1 and
the workflow pool 2 stops the two handles and closes the connections, and
neither pool is torn down: no destruction or reset of a pool is in the
trace, and the plugin still holds both pools. -/
theorem Stop_leaves_pools :
    (Example.rootServing.Stop (fun _ => none) []).2.2 =
      [.Unsubscribe, .StopSignal, .WorkerStop ⟨1⟩, .WorkerStop ⟨2⟩, .TallyClose, .ClientClose] ∧
    Event.PoolDestroy Example.rootServing.actP ∉ (Example.rootServing.Stop (fun _ => none) []).2.2 ∧
    Event.PoolDestroy Example.rootServing.wfP ∉ (Example.rootServing.Stop (fun _ => none) []).2.2 ∧
    Event.PoolReset Example.rootServing.actP ∉ (Example.rootServing.Stop (fun _ => none) []).2.2 ∧
    Event.PoolReset Example.rootServing.wfP ∉ (Example.rootServing.Stop (fun _ => none) []).2.2 ∧
    (Example.rootServing.Stop (fun _ => none) []).2.1.actP = ⟨1⟩ ∧
    (Example.rootServing.Stop (fun _ => none) []).2.1.wfP = ⟨2⟩ := by
  refine ⟨by decide, by decide, by decide, by decide, by decide, by decide, by decide⟩

/-- The loop that starts the handles adds only starts to the trace, and when
it ends without error it has started every handle, in order. -/
theorem Reset.start_trace (c : Collaborators) (workers : List Worker) (trace : Trace) :
    (∃ started : List Worker,
      (Reset.start c workers trace).2 = trace ++ started.map Event.WorkerStart) ∧
    ((Reset.start c workers trace).1 = none →
      (Reset.start c workers trace).2 = trace ++ workers.map Event.WorkerStart) := by
  induction workers generalizing trace with
  | nil => exact ⟨⟨[], by simp [Reset.start]⟩, fun _ => by simp [Reset.start]⟩
  | cons w rest ih =>
    unfold Reset.start
    cases hw : c.WorkerStart trace w with
    | some err =>
      exact ⟨⟨[w], by simp⟩, fun h => by simp at h⟩
    | none =>
      simp only []
      obtain ⟨⟨started, hs⟩, hall⟩ := ih (trace ++ [.WorkerStart w])
      refine ⟨⟨w :: started, by rw [hs]; simp⟩, fun h => ?_⟩
      rw [hall h]
      simp

/-- Method `Reset`, written over the traces of its stages. -/
theorem Plugin.Reset_eq (c : Collaborators) (p : Plugin) (trace : Trace) :
    p.Reset c trace =
      match c.PoolReset (Reset.stopped p trace) p.wfP with
      | some errWp =>
        (some (.E "temporal_reset" errWp), { p with workers := [] },
          Reset.stopped p trace ++ [.PoolReset p.wfP])
      | none =>
        match c.PoolReset (Reset.workflowPoolReset p trace) p.actP with
        | some errAp =>
          (some (.E "temporal_reset" errAp), { p with workers := [] },
            Reset.workflowPoolReset p trace ++ [.PoolReset p.actP])
        | none =>
          match c.GetWorkerInfo (Reset.poolsReset p trace) p.wfP p.rrVersion with
          | .inr err =>
            (some err, { p with workers := [] }, Reset.poolsReset p trace ++ [.GetWorkerInfo p.wfP])
          | .inl wi =>
            match c.InitWorkers (Reset.poolsReset p trace ++ [.GetWorkerInfo p.wfP]) wi
              p.graceTimeout with
            | (workers, some err) =>
              (some err, { p with workers := workers },
                Reset.poolsReset p trace ++ [.GetWorkerInfo p.wfP] ++ [.InitWorkers wi])
            | (workers, none) =>
              match Reset.start c workers
                (Reset.poolsReset p trace ++ [.GetWorkerInfo p.wfP] ++ [.InitWorkers wi]) with
              | (some err, trace₅) => (some err, { p with workers := workers }, trace₅)
              | (none, trace₅) =>
                (none,
                  { p with
                      workers := workers
                      activities := c.GrabActivities wi
                      workflows := c.GrabWorkflows wi },
                  trace₅) := by
  rfl

/-- No start of a worker handle enters the trace before the catalogue is
fetched. -/
theorem Reset.poolsReset_no_start (p : Plugin) (trace : Trace) (w : Worker)
    (h : Event.WorkerStart w ∈ Reset.poolsReset p trace ++ [.GetWorkerInfo p.wfP]) :
    Event.WorkerStart w ∈ trace := by
  simp only [Reset.poolsReset, Reset.workflowPoolReset, Reset.stopped, List.mem_append,
    List.mem_cons, List.mem_map, List.mem_singleton] at h
  rcases h with (((((h | h) | h) | h) | h) | h) | h
  · exact h
  · simp at h
  · simp at h
  · simp at h
  · simp at h
  · simp at h
  · simp at h

/-- Every stage after the first pool reset extends the same beginning. -/
theorem Reset.poolsReset_prefix (p : Plugin) (trace tail : Trace) :
    Reset.poolsReset p trace ++ tail =
      Reset.stopped p trace ++ .PoolReset p.wfP ::
        ([.LogInfo "workflow pool restarted", .PoolReset p.actP,
          .LogInfo "activity pool restarted"] ++ tail) := by
  simp [Reset.poolsReset, Reset.workflowPoolReset]

/-- C18: Reset stops every current worker handle and purges the sticky cache
before it resets a pool, resets the workflow pool and then the activity pool,
then fetches the catalogue, creates the handles and starts each; on success
the stored handles are the new ones and the stored activity and workflow
catalogues are those of the fetched worker info. When either pool reset fails
Reset returns that error at once, and a start of a worker handle enters the
trace only when both pool resets succeeded. -/
theorem Reset_procedure (c : Collaborators) (p : Plugin) (trace : Trace) :
    (∃ rest, (p.Reset c trace).2.2 = Reset.stopped p trace ++ .PoolReset p.wfP :: rest) ∧
    (∀ e, c.PoolReset (Reset.stopped p trace) p.wfP = some e →
      p.Reset c trace =
        (some (.E "temporal_reset" e), { p with workers := [] },
          Reset.stopped p trace ++ [.PoolReset p.wfP])) ∧
    (∀ e, c.PoolReset (Reset.stopped p trace) p.wfP = none →
      c.PoolReset (Reset.workflowPoolReset p trace) p.actP = some e →
      p.Reset c trace =
        (some (.E "temporal_reset" e), { p with workers := [] },
          Reset.workflowPoolReset p trace ++ [.PoolReset p.actP])) ∧
    ((p.Reset c trace).1 = none →
      ∃ wi workers,
        c.PoolReset (Reset.stopped p trace) p.wfP = none ∧
        c.PoolReset (Reset.workflowPoolReset p trace) p.actP = none ∧
        c.GetWorkerInfo (Reset.poolsReset p trace) p.wfP p.rrVersion = .inl wi ∧
        c.InitWorkers (Reset.poolsReset p trace ++ [.GetWorkerInfo p.wfP]) wi p.graceTimeout =
          (workers, none) ∧
        p.Reset c trace =
          (none,
            { p with
                workers := workers
                activities := c.GrabActivities wi
                workflows := c.GrabWorkflows wi },
            Reset.poolsReset p trace ++ [.GetWorkerInfo p.wfP] ++ [.InitWorkers wi]
              ++ workers.map Event.WorkerStart)) ∧
    (∀ w, Event.WorkerStart w ∈ (p.Reset c trace).2.2 → Event.WorkerStart w ∉ trace →
      c.PoolReset (Reset.stopped p trace) p.wfP = none ∧
      c.PoolReset (Reset.workflowPoolReset p trace) p.actP = none) := by
  have hstop : ∀ w, Event.WorkerStart w ∈ Reset.stopped p trace ++ [.PoolReset p.wfP] →
      Event.WorkerStart w ∈ trace := by
    intro w h
    apply Reset.poolsReset_no_start p trace w
    rw [Reset.poolsReset_prefix]
    simp only [List.mem_append, List.mem_cons, List.mem_singleton] at h ⊢
    rcases h with h | h
    · exact Or.inl h
    · simp at h
  have hwf : ∀ w, Event.WorkerStart w ∈ Reset.workflowPoolReset p trace ++ [.PoolReset p.actP] →
      Event.WorkerStart w ∈ trace := by
    intro w h
    apply Reset.poolsReset_no_start p trace w
    simp only [Reset.poolsReset, List.mem_append, List.mem_cons, List.mem_singleton] at h ⊢
    rcases h with h | h
    · exact Or.inl (Or.inl h)
    · simp at h
  rw [Plugin.Reset_eq]
  cases h₁ : c.PoolReset (Reset.stopped p trace) p.wfP with
  | some e₁ =>
    refine ⟨⟨[], rfl⟩, fun e he => ?_, fun e he => (by cases he), fun h => (by cases h),
      fun w hw hno => absurd (hstop w hw) hno⟩
    cases he
    rfl
  | none =>
    cases h₂ : c.PoolReset (Reset.workflowPoolReset p trace) p.actP with
    | some e₂ =>
      refine ⟨⟨[.LogInfo "workflow pool restarted", .PoolReset p.actP], ?_⟩,
        fun e he => (by cases he), fun e _ he => ?_, fun h => (by cases h),
        fun w hw hno => absurd (hwf w hw) hno⟩
      · simp [Reset.workflowPoolReset]
      · cases he
        rfl
    | none =>
      have hpre : ∀ tr : Trace, (∃ tail, tr = Reset.poolsReset p trace ++ tail) →
          ∃ rest, tr = Reset.stopped p trace ++ .PoolReset p.wfP :: rest := by
        rintro tr ⟨tail, rfl⟩
        exact ⟨_, Reset.poolsReset_prefix p trace tail⟩
      refine ⟨?_, fun e he => (by cases he), fun e _ he => (by cases he), ?_,
        fun w _ _ => ⟨rfl, rfl⟩⟩
      · cases h₃ : c.GetWorkerInfo (Reset.poolsReset p trace) p.wfP p.rrVersion with
        | inr err => exact hpre _ ⟨_, rfl⟩
        | inl wi =>
          cases h₄ : c.InitWorkers (Reset.poolsReset p trace ++ [.GetWorkerInfo p.wfP]) wi
            p.graceTimeout with
          | mk workers err =>
            cases err with
            | some e =>
              simp only [h₄]
              exact hpre _ ⟨_, List.append_assoc _ _ _⟩
            | none =>
              obtain ⟨⟨started, hs⟩, _⟩ := Reset.start_trace c workers
                (Reset.poolsReset p trace ++ [.GetWorkerInfo p.wfP] ++ [.InitWorkers wi])
              rcases h₅ : Reset.start c workers
                (Reset.poolsReset p trace ++ [.GetWorkerInfo p.wfP] ++ [.InitWorkers wi])
                with ⟨serr, trace₅⟩
              rw [h₅] at hs
              have hs' : trace₅ = Reset.poolsReset p trace ++
                  ([.GetWorkerInfo p.wfP] ++ [.InitWorkers wi] ++ started.map Event.WorkerStart) := by
                rw [show trace₅ = _ from hs]
                simp [List.append_assoc]
              simp only [h₄, h₅]
              cases serr with
              | some e => exact hpre _ ⟨_, hs'⟩
              | none => exact hpre _ ⟨_, hs'⟩
      · intro hok
        cases h₃ : c.GetWorkerInfo (Reset.poolsReset p trace) p.wfP p.rrVersion with
        | inr err => simp [h₃] at hok
        | inl wi =>
          cases h₄ : c.InitWorkers (Reset.poolsReset p trace ++ [.GetWorkerInfo p.wfP]) wi
            p.graceTimeout with
          | mk workers err =>
            cases err with
            | some e => simp [h₃, h₄] at hok
            | none =>
              have hall := (Reset.start_trace c workers
                (Reset.poolsReset p trace ++ [.GetWorkerInfo p.wfP] ++ [.InitWorkers wi])).2
              refine ⟨wi, workers, rfl, rfl, rfl, h₄, ?_⟩
              rcases h₅ : Reset.start c workers
                (Reset.poolsReset p trace ++ [.GetWorkerInfo p.wfP] ++ [.InitWorkers wi])
                with ⟨serr, trace₅⟩
              rw [h₅] at hall
              simp only [h₃, h₄, h₅] at hok ⊢
              cases serr with
              | some e => simp at hok
              | none =>
                have htrace : trace₅ = Reset.poolsReset p trace ++ [.GetWorkerInfo p.wfP]
                    ++ [.InitWorkers wi] ++ workers.map Event.WorkerStart := hall rfl
                rw [htrace]

/-- C18 on a plugin with two worker handles: a reset whose workflow pool
cannot be reset stops after that stage, and a reset that succeeds runs the
stages in order and stores the catalogue of the fetched worker info. -/
theorem Reset_procedure_witness :
    Example.rootServing.Reset Example.collaboratorsFailing [] =
      (some (.E "temporal_reset" (.foreign "pool reset failed")),
        { Example.rootServing with workers := [] },
        Reset.stopped Example.rootServing [] ++ [.PoolReset ⟨2⟩]) ∧
    Example.rootServing.Reset Example.collaboratorsEcho [] =
      (none,
        { Example.rootServing with
            workers := [⟨3⟩]
            activities := [("Echo", ⟨"Echo"⟩)]
            workflows := [] },
        [.LogInfo "reset signal received, resetting activity and workflow worker pools",
          .WorkerStop ⟨1⟩, .WorkerStop ⟨2⟩, .PurgeStickyWorkflowCache,
          .PoolReset ⟨2⟩, .LogInfo "workflow pool restarted",
          .PoolReset ⟨1⟩, .LogInfo "activity pool restarted",
          .GetWorkerInfo ⟨2⟩, .InitWorkers Example.workerInfo, .WorkerStart ⟨3⟩]) :=
  ⟨(Reset_procedure Example.collaboratorsFailing Example.rootServing []).2.1
      (.foreign "pool reset failed") rfl,
    by decide⟩

end roadrunner_temporal

/-! ## The control loops -/

/-- C19 (amended): in the activity plugin, when replacePool fails while the
closing flag is not set, the control loop hands replacePool to `backoff.Retry`
with an exponential backoff whose initial interval is one second and whose
other settings are the library's defaults; when `Retry` returns, with nil or
with an error that is sent to the error channel, the loop goes on to the next
reset request. In the root plugin a failed Reset is not retried: after that
one attempt its error is sent to the error channel and the control loop
returns. -/
theorem Serve_after_failed_reset (t : activity.Temporal) (b : activity.Backoff)
    (p p₁ : activity.Plugin) (trace trace₁ : Trace) (errCh : List GoError) (err : GoError)
    (c : roadrunner_temporal.Collaborators) (root : roadrunner_temporal.Plugin)
    (rootTrace : Trace) (rootErrCh : List GoError) (message : String)
    (hopen : p.closing ≠ 1)
    (hfail : p.replacePool t trace = (.ret (some err), p₁, trace₁)) :
    (∀ out p₂ trace₂,
      b.Retry (activity.Plugin.replacePool t)
        { b.NewExponentialBackOff with InitialInterval := Second } p₁ trace₁ =
          (.ret out, p₂, trace₂) →
      activity.Serve.iteration t b p trace errCh =
        (.ret .next, p₂, trace₂,
          errCh ++ (match out with
            | some e => [GoError.E "activity_plugin_serve" e]
            | none => []))) ∧
    ({ b.NewExponentialBackOff with InitialInterval := Second } :
      activity.ExponentialBackOff).InitialInterval = 1000000000 ∧
    (∀ errR,
      (root.Reset c (rootTrace ++
        [.LogDebug "worker stopped, restarting pool and temporal workers"])).1 = some errR →
      roadrunner_temporal.Serve.iteration c root rootTrace rootErrCh (.event message) =
        (.exit,
          (root.Reset c (rootTrace ++
            [.LogDebug "worker stopped, restarting pool and temporal workers"])).2.1,
          (root.Reset c (rootTrace ++
            [.LogDebug "worker stopped, restarting pool and temporal workers"])).2.2,
          rootErrCh ++ [.E "temporal_plugin_serve"
            (.Errorf "error during reset: %#v, event: %s" errR message)])) := by
  refine ⟨?_, rfl, ?_⟩
  · intro out p₂ trace₂ hretry
    unfold activity.Serve.iteration
    rw [if_neg hopen, hfail]
    simp only [hretry]
    cases out <;> simp
  · intro errR hreset
    unfold roadrunner_temporal.Serve.iteration
    rcases hr : root.Reset c (rootTrace ++
      [.LogDebug "worker stopped, restarting pool and temporal workers"]) with ⟨e, p', tr'⟩
    rw [hr] at hreset
    simp only [Option.some.injEq] at hreset
    subst hreset
    simp only [hr]

/-- C19 (amended) on a plugin whose replacement pool cannot be created: the
retry fails as well, its error is in the error channel and the loop goes on;
the first generation is still current. -/
theorem Serve_after_failed_reset_witness :
    (activity.Serve.iteration Example.temporalNoPool Example.backoff Example.plugin [] []).1 =
      .ret .next ∧
    (activity.Serve.iteration Example.temporalNoPool Example.backoff Example.plugin [] []).2.1 =
      Example.plugin ∧
    (activity.Serve.iteration Example.temporalNoPool Example.backoff Example.plugin
        [] []).2.2.2 =
      [.E "activity_plugin_serve" (.E "activity_plugin_replace_pool"
        (.E "newActivityPool" (.E "new_activity_pool" (.foreign "no workers"))))] := by
  have h := (Serve_after_failed_reset Example.temporalNoPool Example.backoff Example.plugin
    (Example.plugin.replacePool Example.temporalNoPool []).2.1
    [] (Example.plugin.replacePool Example.temporalNoPool []).2.2 []
    (.E "activity_plugin_replace_pool"
      (.E "newActivityPool" (.E "new_activity_pool" (.foreign "no workers"))))
    Example.collaborators (Example.root 0) [] [] "" (by decide) rfl).1
    (some (.E "activity_plugin_replace_pool"
      (.E "newActivityPool" (.E "new_activity_pool" (.foreign "no workers")))))
    Example.plugin
    ((Example.plugin.replacePool Example.temporalNoPool
      (Example.plugin.replacePool Example.temporalNoPool []).2.2).2.2) rfl
  rw [h]
  exact ⟨rfl, rfl, rfl⟩

/-- C19 as stated fails in the root plugin: woken by a worker-stopped event
while the workflow pool cannot be reset, the control loop makes one reset
attempt (one pool reset in the trace), sends the error and returns, without a
retry. -/
theorem Serve_root_exits_on_failed_reset :
    roadrunner_temporal.Serve.iteration Example.collaboratorsFailing Example.rootServing [] []
        (.event "worker stopped") =
      (.exit, { Example.rootServing with workers := [] },
        [.LogDebug "worker stopped, restarting pool and temporal workers",
          .LogInfo "reset signal received, resetting activity and workflow worker pools",
          .WorkerStop ⟨1⟩, .WorkerStop ⟨2⟩, .PurgeStickyWorkflowCache, .PoolReset ⟨2⟩],
        [.E "temporal_plugin_serve"
          (.Errorf "error during reset: %#v, event: %s"
            (.E "temporal_reset" (.foreign "pool reset failed")) "worker stopped")]) := by
  decide

/-- C20 (amended): Stop sets the closing flag, and a pass of the control loop
that begins with the flag set returns at once: the plugin, the trace and the
error channel are as before, so that pass starts and swaps in no pool and does
not retry, whatever replacePool's collaborators and the retry library would do.
The flag is read nowhere else: replacePool, which is also the operation that
the retry runs, does the same whatever the flag holds, and on a plugin that is
closing and has no pool it installs the pool it started and then panics. -/
theorem Serve_tests_closing_at_pass_start (t : activity.Temporal) (b : activity.Backoff)
    (p : activity.Plugin) (trace : Trace) (errCh : List GoError) :
    (p.Stop trace).2.1.closing = 1 ∧
    activity.Serve.iteration t b (p.Stop trace).2.1 (p.Stop trace).2.2 errCh =
      (.ret .exit, (p.Stop trace).2.1, (p.Stop trace).2.2, errCh) ∧
    (∀ q tr, q.closing = 1 → activity.Serve.iteration t b q tr errCh = (.ret .exit, q, tr, errCh)) ∧
    (∀ (q : activity.Plugin) (tr : Trace) (c : Int),
      activity.Plugin.replacePool t { q with closing := c } tr =
      ((q.replacePool t tr).1, { (q.replacePool t tr).2.1 with closing := c },
        (q.replacePool t tr).2.2)) ∧
    (∀ (q : activity.Plugin) (tr : Trace) (pool : activity.activityPoolImpl) (tr₁ : Trace),
      q.closing = 1 → q.pool = none → q.startPool t tr = (.inl pool, tr₁) →
      q.replacePool t tr =
        (.panic nilDereference, { q with pool := some pool },
          tr₁ ++ [.LogDebug "replace activity pool"])) := by
  have hflag : (p.Stop trace).2.1.closing = 1 := by
    unfold activity.Plugin.Stop
    cases hp : p.pool with
    | none => rfl
    | some pool =>
      simp only []
      rcases hd : pool.Destroy trace with ⟨err, trace₁⟩
      cases err <;> rfl
  have hexit : ∀ q tr, q.closing = 1 →
      activity.Serve.iteration t b q tr errCh = (.ret .exit, q, tr, errCh) := by
    intro q tr hq
    unfold activity.Serve.iteration
    rw [if_pos hq]
  refine ⟨hflag, hexit _ _ hflag, hexit, ?_, ?_⟩
  · intro q tr c
    have hstart : activity.Plugin.startPool t { q with closing := c } tr =
        q.startPool t tr := rfl
    unfold activity.Plugin.replacePool
    rw [hstart]
    rcases hs : q.startPool t tr with ⟨r, tr₁⟩
    cases r with
    | inr err => rfl
    | inl pool =>
      simp only []
      cases hq : q.pool with
      | none => rfl
      | some previous =>
        simp only []
        rcases hd : previous.Destroy (tr₁ ++ [.LogDebug "replace activity pool"]) with ⟨e, tr₂⟩
        cases e <;> rfl
  · intro q tr pool tr₁ _ hq hs
    unfold activity.Plugin.replacePool
    rw [hs]
    simp only [hq]

/-- C20 (amended) on the plugin whose first generation is current: Stop
destroys it, and the loop then returns without a new pool. -/
theorem Serve_tests_closing_at_pass_start_witness :
    Example.plugin.Stop [] =
      (none, { pool := none, graceTimeout := 0, closing := 1 },
        [.WorkerStop ⟨1⟩, .PoolDestroy ⟨1⟩]) ∧
    activity.Serve.iteration Example.temporal Example.backoff
        { pool := none, graceTimeout := 0, closing := 1 } [.WorkerStop ⟨1⟩, .PoolDestroy ⟨1⟩] [] =
      (.ret .exit, { pool := none, graceTimeout := 0, closing := 1 },
        [.WorkerStop ⟨1⟩, .PoolDestroy ⟨1⟩], []) :=
  ⟨rfl,
    (Serve_tests_closing_at_pass_start Example.temporal Example.backoff Example.plugin [] []).2.2.1
      _ _ rfl⟩

/-- C20 as stated fails: a pass begins before Stop, its first replacePool
fails, and Stop runs while the retry waits. Stop sets the flag, destroys the
current pool and clears the reference; the attempt of the retry then starts a
second pool, swaps it in, and panics on the call of `Destroy` on the nil
previous pool. After Stop has set the flag the loop has started and swapped in
a pool. -/
theorem Serve_retry_after_Stop_installs_pool :
    Example.plugin.closing = 0 ∧
    (Example.plugin.replacePool Example.temporalSecondTry []).1 =
      .ret (some (.E "activity_plugin_replace_pool"
        (.E "newActivityPool" (.E "new_activity_pool" (.foreign "no workers"))))) ∧
    activity.Serve.iteration Example.temporalSecondTry Example.backoffStopDuringWait
        Example.plugin [] [] =
      (.panic nilDereference,
        { pool := some Example.generation2, graceTimeout := 0, closing := 1 },
        [.NewWorkerPool [("RR_MODE", "temporal/activity"), ("RR_CODEC", "json")],
          .LogError "replace activity pool failed"
            (.E "newActivityPool" (.E "new_activity_pool" (.foreign "no workers"))),
          .WorkerStop ⟨1⟩, .PoolDestroy ⟨1⟩,
          .NewWorkerPool [("RR_MODE", "temporal/activity"), ("RR_CODEC", "json")],
          .FetchWorkerInfo ⟨2⟩,
          .CreateWorker "default" ⟨0, 0⟩,
          .RegisterActivity ⟨2⟩ "Echo",
          .WorkerStart ⟨2⟩,
          .LogDebug "Started activity processing",
          .LogDebug "replace activity pool"],
        []) := by
  refine ⟨by decide, by decide, by decide⟩

/-! ## Stopping the activity plugin and reading it -/

namespace activity

/-- Method `Stop` is `StopWith` at the `Destroy` of `activityPoolImpl`. -/
theorem Plugin.Stop_eq (p : Plugin) (trace : Trace) :
    p.Stop trace = p.StopWith (fun _ pool tr => pool.Destroy tr) trace := by
  unfold Plugin.Stop Plugin.StopWith
  rfl

/-- C22 (amended): on a plugin with no current pool Stop returns nil and calls
no `Destroy`: the trace is as before. That is the state after a Serve that
failed before it installed a pool, and the state a Stop leaves behind, so a
second Stop does nothing more. When a pool is current Stop clears the
reference, calls `Destroy` on that pool once, and returns its error, wrapped,
if it returns one. The Stop of the earlier plugin returns nil without a
`Destroy` when it has no pool as well; when it has a pool it calls `Destroy`
on it once, returns nil whatever `Destroy` returned, and keeps the reference:
the plugin is as before. -/
theorem Stop_safe (destroy : Plugin → activityPoolImpl → Trace → Option GoError × Trace)
    (t : Temporal) (p : Plugin) (trace : Trace)
    (drop : plugins_activity.activityPool → Trace → Option GoError × Trace)
    (svc : plugins_activity.Plugin) :
    (p.pool = none → p.StopWith destroy trace = (none, { p with closing := 1 }, trace)) ∧
    (p.pool = none → (p.Serve t trace).1 = false →
      (p.Serve t trace).2.1.StopWith destroy (p.Serve t trace).2.2.1 =
        (none, { p with closing := 1 }, (p.Serve t trace).2.2.1)) ∧
    ((p.StopWith destroy trace).2.1.pool = none ∧
      (p.StopWith destroy trace).2.1.StopWith destroy (p.StopWith destroy trace).2.2 =
        (none, (p.StopWith destroy trace).2.1, (p.StopWith destroy trace).2.2)) ∧
    (∀ pool, p.pool = some pool →
      p.StopWith destroy trace =
        ((destroy { p with closing := 1, pool := none } pool trace).1.map
            (GoError.E "activity_plugin_stop"),
          { p with closing := 1, pool := none },
          (destroy { p with closing := 1, pool := none } pool trace).2)) ∧
    (∀ pool, p.pool = some pool →
      p.Stop trace =
        (none, { p with closing := 1, pool := none },
          trace ++ pool.tWorkers.map Event.WorkerStop ++ [.PoolDestroy pool.wp])) ∧
    p.Stop trace = p.StopWith (fun _ pool tr => pool.Destroy tr) trace ∧
    (svc.pool = none → svc.Stop drop trace = (none, svc, trace)) ∧
    (∀ pool, svc.pool = some pool → svc.Stop drop trace = (none, svc, (drop pool trace).2)) := by
  have hnone : ∀ q : Plugin, ∀ tr : Trace, q.pool = none →
      q.StopWith destroy tr = (none, { q with closing := 1 }, tr) := by
    intro q tr hq
    unfold Plugin.StopWith
    rw [hq]
  have hsome : ∀ pool, p.pool = some pool →
      ∀ d : Plugin → activityPoolImpl → Trace → Option GoError × Trace,
      p.StopWith d trace =
        ((d { p with closing := 1, pool := none } pool trace).1.map
            (GoError.E "activity_plugin_stop"),
          { p with closing := 1, pool := none },
          (d { p with closing := 1, pool := none } pool trace).2) := by
    intro pool hp d
    unfold Plugin.StopWith
    rw [hp]
    simp only []
    rcases hd : d { p with closing := 1, pool := none } pool trace with ⟨err, trace₁⟩
    cases err <;> simp [hd]
  have hcleared : (p.StopWith destroy trace).2.1.pool = none := by
    cases hp : p.pool with
    | none => rw [hnone p trace hp]; exact hp
    | some pool => rw [hsome pool hp destroy]
  refine ⟨hnone p trace, ?_, ⟨hcleared, ?_⟩, fun pool hp => hsome pool hp destroy, ?_,
    Plugin.Stop_eq p trace, ?_, ?_⟩
  · intro hp hfail
    have hserve : (p.Serve t trace).2.1 = p := by
      unfold Plugin.Serve at hfail ⊢
      rcases hs : p.startPool t trace with ⟨r, trace₁⟩
      rw [hs] at hfail
      cases r with
      | inr err => rfl
      | inl pool => simp at hfail
    rw [hserve]
    exact hnone p _ hp
  · rw [hnone _ _ hcleared]
    congr 1
    cases hp : p.pool with
    | none => rw [hnone p trace hp]
    | some pool => rw [hsome pool hp destroy]
  · intro pool hp
    rw [Plugin.Stop_eq, hsome pool hp]
    simp [activityPoolImpl.Destroy]
  · intro hs
    unfold plugins_activity.Plugin.Stop
    rw [hs]
  · intro pool hs
    unfold plugins_activity.Plugin.Stop
    rw [hs]

/-- C22 (amended) on a plugin whose Serve could not create a pool, on a stopped
plugin, on a plugin whose pool fails to be destroyed, and on the earlier plugin
with a pool. -/
theorem Stop_safe_witness :
    (Example.fresh.Serve Example.temporalNoPool []).2.1.Stop
        (Example.fresh.Serve Example.temporalNoPool []).2.2.1 =
      (none, { Example.fresh with closing := 1 },
        (Example.fresh.Serve Example.temporalNoPool []).2.2.1) ∧
    Example.stopped.Stop [] = (none, Example.stopped, []) ∧
    Example.plugin.StopWith Example.destroyFailing [] =
      (some (.E "activity_plugin_stop" (.foreign "destroy failed")), Example.stopped,
        [.PoolDestroy ⟨1⟩]) ∧
    Example.svc.Stop Example.svcDestroyFailing [] = (none, Example.svc, [.PoolDestroy ⟨1⟩]) := by
  have h := Stop_safe Example.destroyFailing Example.temporalNoPool Example.plugin []
    Example.svcDestroyFailing Example.svc
  refine ⟨by decide, by decide, ?_, ?_⟩
  · rw [h.2.2.2.1 Example.generation1 rfl]
    decide
  · rw [h.2.2.2.2.2.2.2 ⟨1⟩ rfl]
    decide

/-- C22 as stated fails on the Stop of the earlier plugin, which the claim cites
too: with a pool current whose `Destroy` returns an error, Stop returns nil,
not that error, and the plugin still holds the pool, so a second Stop calls
`Destroy` on the same pool again. -/
theorem svc_Stop_keeps_pool_and_drops_error :
    Example.svc.pool = some ⟨1⟩ ∧
    (Example.svcDestroyFailing ⟨1⟩ []).1 = some (.foreign "destroy failed") ∧
    (Example.svc.Stop Example.svcDestroyFailing []).1 = none ∧
    (Example.svc.Stop Example.svcDestroyFailing []).2.1.pool = some ⟨1⟩ ∧
    (Example.svc.Stop Example.svcDestroyFailing []).2.2 = [.PoolDestroy ⟨1⟩] ∧
    ((Example.svc.Stop Example.svcDestroyFailing []).2.1.Stop Example.svcDestroyFailing
      (Example.svc.Stop Example.svcDestroyFailing []).2.2).2.2 =
        [.PoolDestroy ⟨1⟩, .PoolDestroy ⟨1⟩] := by
  refine ⟨by decide, by decide, by decide, by decide, by decide, by decide⟩

/-- C25: on a plugin with no current pool, before Serve has installed one or
after Stop has cleared it, ActivityNames calls a method on a nil interface
value and panics, while Workers returns nil. -/
theorem ActivityNames_panics_without_pool (workers : WorkerPool → List BaseProcess)
    (p : Plugin) (h : p.pool = none) :
    p.ActivityNames = .panic nilDereference ∧ p.Workers workers = [] := by
  unfold Plugin.ActivityNames Plugin.Workers
  rw [h]
  exact ⟨rfl, rfl⟩

/-- C25 on the plugin that Stop leaves behind and on the plugin before Serve:
ActivityNames panics on both. -/
theorem ActivityNames_panics_without_pool_witness :
    (Example.plugin.Stop []).2.1.ActivityNames = .panic nilDereference ∧
    (Example.plugin.Stop []).2.1.Workers Example.workers = [] ∧
    Example.fresh.ActivityNames = .panic nilDereference :=
  ⟨(ActivityNames_panics_without_pool Example.workers (Example.plugin.Stop []).2.1 rfl).1,
    (ActivityNames_panics_without_pool Example.workers (Example.plugin.Stop []).2.1 rfl).2,
    (ActivityNames_panics_without_pool Example.workers Example.fresh rfl).1⟩

/-- The copy loop of `Workers` returns the processes of the pool, in order. -/
theorem activityPoolImpl.Workers_eq (workers : WorkerPool → List BaseProcess)
    (pool : activityPoolImpl) : pool.Workers workers = workers pool.wp := by
  unfold activityPoolImpl.Workers
  have h : ∀ (l base : List BaseProcess),
      l.foldl (fun base w => base ++ [w]) base = base ++ l := by
    intro l
    induction l with
    | nil => intro base; simp
    | cons w rest ih => intro base; simp [ih]
  rw [h]
  rfl

/-- With a pool current each accessor returns that pool's list. -/
theorem accessors_with_pool (workers : WorkerPool → List BaseProcess) (p : Plugin)
    (pool : activityPoolImpl) (h : p.pool = some pool) :
    p.ActivityNames = .ret pool.activities ∧ p.Workers workers = workers pool.wp := by
  unfold Plugin.ActivityNames Plugin.Workers
  rw [h]
  exact ⟨rfl, activityPoolImpl.Workers_eq workers pool⟩

/-! ## The graceful timeout of the workers -/

theorem initWorkers.register_graceTimeout (w : Worker) (as : List ActivityInfo)
    (pool : activityPoolImpl) (trace : Trace) :
    (initWorkers.register w as pool trace).1.graceTimeout = pool.graceTimeout ∧
    ∀ g, ∀ e ∈ (initWorkers.register w as pool trace).2, e ∈ trace ∨ createdWith g e := by
  induction as generalizing pool trace with
  | nil => exact ⟨rfl, fun g e he => Or.inl he⟩
  | cons a rest ih =>
    have h := ih { pool with activities := pool.activities ++ [a.Name] }
      (trace ++ [.RegisterActivity w a.Name])
    refine ⟨h.1, fun g e he => ?_⟩
    rcases h.2 g e he with h' | h'
    · rcases List.mem_append.mp h' with h'' | h''
      · exact Or.inl h''
      · right
        intro taskQueue options heq
        rw [heq] at h''
        simp at h''
    · exact Or.inr h'

/-- Every worker that the loop of `initWorkers` creates is created with the
stop timeout stored in the pool. -/
theorem initWorkers.loop_created (t : Temporal) (wis : List WorkerInfo) (pool : activityPoolImpl)
    (trace : Trace) :
    ∀ e ∈ (initWorkers.loop t wis pool trace).2.2, e ∈ trace ∨ createdWith pool.graceTimeout e := by
  induction wis generalizing pool trace with
  | nil => exact fun e he => Or.inl he
  | cons wi rest ih =>
    have hcreate : ∀ e ∈ trace ++ [Event.CreateWorker wi.TaskQueue
        { wi.Options with WorkerStopTimeout := pool.graceTimeout }],
        e ∈ trace ∨ createdWith pool.graceTimeout e := by
      intro e he
      rcases List.mem_append.mp he with h | h
      · exact Or.inl h
      · right
        intro taskQueue options heq
        rw [List.mem_singleton] at h
        rw [h] at heq
        simp only [Event.CreateWorker.injEq] at heq
        rw [← heq.2]
    unfold initWorkers.loop
    simp only []
    split
    · rename_i err hc
      intro e he
      have he' : e ∈ (trace ++ [Event.CreateWorker wi.TaskQueue
          { wi.Options with WorkerStopTimeout := pool.graceTimeout }])
          ++ pool.tWorkers.map Event.WorkerStop ++ [.PoolDestroy pool.wp] := by
        simpa [activityPoolImpl.Destroy] using he
      rcases List.mem_append.mp he' with h | h
      · rcases List.mem_append.mp h with h' | h'
        · exact hcreate e h'
        · right
          intro taskQueue options heq
          rw [heq] at h'
          simp at h'
      · right
        intro taskQueue options heq
        rw [heq] at h
        simp at h
    · rename_i w hc
      intro e he
      have hreg := initWorkers.register_graceTimeout w wi.Activities
        { pool with tWorkers := pool.tWorkers ++ [w] }
        (trace ++ [Event.CreateWorker wi.TaskQueue
          { wi.Options with WorkerStopTimeout := pool.graceTimeout }])
      rcases ih _ _ e he with h | h
      · rcases hreg.2 pool.graceTimeout e h with h' | h'
        · exact hcreate e h'
        · exact Or.inr h'
      · right
        rw [hreg.1] at h
        exact h

theorem Start.loop_trace (t : Temporal) (ws : List Worker) (trace : Trace) :
    ∀ e ∈ (Start.loop t ws trace).2, e ∈ trace ∨ ∃ w, e = Event.WorkerStart w := by
  induction ws generalizing trace with
  | nil => exact fun e he => Or.inl he
  | cons w rest ih =>
    have hstart : ∀ e ∈ trace ++ [Event.WorkerStart w], e ∈ trace ∨ ∃ w, e = Event.WorkerStart w := by
      intro e he
      rcases List.mem_append.mp he with h | h
      · exact Or.inl h
      · exact Or.inr ⟨w, List.mem_singleton.mp h⟩
    unfold Start.loop
    split
    · exact hstart
    · intro e he
      rcases ih _ e he with h | h
      · exact hstart e h
      · exact Or.inr h

/-- Every worker that `Start` creates is created with the stop timeout stored
in the pool. -/
theorem activityPoolImpl.Start_created (t : Temporal) (pool : activityPoolImpl) (trace : Trace) :
    ∀ e ∈ (pool.Start t trace).2.2, e ∈ trace ∨ createdWith pool.graceTimeout e := by
  have hinit : ∀ e ∈ (activityPoolImpl.initWorkers t
      { pool with dc := some t.GetDataConverter } trace).2.2,
      e ∈ trace ∨ createdWith pool.graceTimeout e := by
    unfold activityPoolImpl.initWorkers
    have hfetch : ∀ e ∈ trace ++ [Event.FetchWorkerInfo pool.wp],
        e ∈ trace ∨ createdWith pool.graceTimeout e := by
      intro e he
      rcases List.mem_append.mp he with h | h
      · exact Or.inl h
      · right
        intro taskQueue options heq
        rw [heq] at h
        simp at h
    split
    · exact hfetch
    · intro e he
      rcases initWorkers.loop_created t _ _ _ e he with h | h
      · exact hfetch e h
      · exact Or.inr h
  unfold activityPoolImpl.Start
  rcases hr : activityPoolImpl.initWorkers t { pool with dc := some t.GetDataConverter } trace
    with ⟨err, pool₁, trace₁⟩
  rw [hr] at hinit
  cases err with
  | some e₁ => exact hinit
  | none =>
    simp only []
    intro e he
    rcases Start.loop_trace t pool₁.tWorkers trace₁ e he with h | ⟨w, h⟩
    · exact hinit e h
    · right
      intro taskQueue options heq
      rw [h] at heq
      cases heq

/-- C23: whatever graceful timeout the plugin holds, every worker that a pool
built through startPool creates is created with WorkerStopTimeout = 0:
`newActivityPool` leaves the `graceTimeout` of the pool at its zero value and
the plugin's value never reaches the pool. -/
theorem startPool_WorkerStopTimeout_zero (t : Temporal) (p : Plugin) (trace : Trace)
    (taskQueue : String) (options : WorkerOptions)
    (hcreated : Event.CreateWorker taskQueue options ∈ (p.startPool t trace).2)
    (hnew : Event.CreateWorker taskQueue options ∉ trace) :
    options.WorkerStopTimeout = 0 := by
  have hall : ∀ e ∈ (p.startPool t trace).2, e ∈ trace ∨ createdWith 0 e := by
    unfold Plugin.startPool
    rcases hn : newActivityPool t t.GetCodec trace with ⟨r, trace₀⟩
    have hpool : trace₀ = trace ++
        [Event.NewWorkerPool [(RR_MODE, t.RRMode), (RR_CODEC, t.GetCodec.name)]] ∧
        ∀ q, r = .inl q → q.graceTimeout = 0 := by
      unfold newActivityPool at hn
      simp only [] at hn
      split at hn
      · simp only [Prod.mk.injEq] at hn
        exact ⟨hn.2.symm, fun q hq => by rw [← hn.1] at hq; cases hq⟩
      · simp only [Prod.mk.injEq] at hn
        refine ⟨hn.2.symm, fun q hq => ?_⟩
        rw [← hn.1] at hq
        simp only [Sum.inl.injEq] at hq
        rw [← hq]
    have hfirst : ∀ e ∈ trace₀, e ∈ trace ∨ createdWith 0 e := by
      intro e he
      rw [hpool.1] at he
      rcases List.mem_append.mp he with h | h
      · exact Or.inl h
      · right
        intro tq o heq
        rw [heq] at h
        simp at h
    cases r with
    | inr err => exact hfirst
    | inl q =>
      simp only []
      have hq := hpool.2 q rfl
      have hstart := activityPoolImpl.Start_created t q trace₀
      rw [hq] at hstart
      rcases hs : q.Start t trace₀ with ⟨err, pool₁, trace₁⟩
      rw [hs] at hstart
      cases err with
      | some e₁ =>
        intro e he
        rcases hstart e he with h | h
        · exact hfirst e h
        · exact Or.inr h
      | none =>
        intro e he
        rcases List.mem_append.mp he with h | h
        · rcases hstart e h with h' | h'
          · exact hfirst e h'
          · exact Or.inr h'
        · right
          intro tq o heq
          rw [heq] at h
          simp at h
  rcases hall _ hcreated with h | h
  · exact absurd h hnew
  · exact h taskQueue options rfl

/-- C23 on a plugin configured with a graceful timeout of 30 seconds: the
plugin holds the 30 seconds, and the worker of its pool is created with a stop
timeout of 0. -/
theorem startPool_WorkerStopTimeout_zero_witness :
    Example.configured.graceTimeout = 30000000000 ∧
    Event.CreateWorker "default" ⟨0, 0⟩ ∈ (Example.configured.startPool Example.temporal []).2 ∧
    (⟨0, 0⟩ : WorkerOptions).WorkerStopTimeout = 0 :=
  ⟨rfl, by decide,
    startPool_WorkerStopTimeout_zero Example.temporal Example.configured [] "default" ⟨0, 0⟩
      (by decide) (by decide)⟩

end activity

/-! ## The fields of a log line -/

namespace logger

/-- The loop of `fields`, entered at the pair `j` with the first `j` entries
filled, returns without a panic, with all `n` entries filled. -/
theorem fields.loop_fills (Sprintf : Interface → String) (keyvals : List Interface) (n : Nat)
    (hlen : keyvals.length = 2 * n) (d j : Nat) (zf : List Field) (hd : n - j = d) (hj : j ≤ n)
    (hzf : zf.length = n) (hfilled : fields.filled Sprintf keyvals j zf) :
    ∃ zf', fields.loop Sprintf keyvals (2 * j) j zf = .ret zf' ∧ zf'.length = n ∧
      fields.filled Sprintf keyvals n zf' := by
  induction d generalizing j zf with
  | zero =>
    have hjn : j = n := by omega
    subst hjn
    refine ⟨zf, ?_, hzf, hfilled⟩
    rw [fields.loop, if_neg (by omega)]
  | succ d ih =>
    have hlt : j < n := by omega
    have h₀ : 2 * j < keyvals.length := by omega
    have h₁ : 2 * j + 1 < keyvals.length := by omega
    have hstep : fields.loop Sprintf keyvals (2 * j) j zf =
        fields.loop Sprintf keyvals (2 * (j + 1)) (j + 1)
          (zf.set j (.Any (fields.key Sprintf keyvals[2 * j]) keyvals[2 * j + 1])) := by
      rw [fields.loop, if_pos h₀, List.getElem?_eq_getElem h₀, List.getElem?_eq_getElem h₁]
      simp only []
      rw [if_pos (by omega)]
      rfl
    rw [hstep]
    apply ih
    · omega
    · omega
    · rw [List.length_set, hzf]
    · intro i hi
      by_cases hij : i = j
      · subst hij
        exact ⟨keyvals[2 * i], keyvals[2 * i + 1], List.getElem?_eq_getElem h₀,
          List.getElem?_eq_getElem h₁, List.getElem?_set_self (by omega)⟩
      · obtain ⟨k, v, hk, hv, hz⟩ := hfilled i (by omega)
        exact ⟨k, v, hk, hv, by rw [List.getElem?_set_ne (fun h => hij h.symm)]; exact hz⟩

/-- C24: for every keyvals list of even length 2n, fields returns, without
indexing outside a list, exactly n fields, the j-th with the key of
keyvals[2j] (the string itself, or its `%v` formatting when it is not a
string) and the value keyvals[2j+1]; for every list of odd length it returns
exactly one field, the error that reports the odd number of keyvals. -/
theorem fields_pairs_keys_with_values (Sprintf : Interface → String)
    (keyvals : List Interface) :
    (∀ n, keyvals.length = 2 * n →
      ∃ zf, ZapAdapter.fields Sprintf keyvals = .ret zf ∧ zf.length = n ∧
        ∀ j, j < n → ∃ k v, keyvals[2 * j]? = some k ∧ keyvals[2 * j + 1]? = some v ∧
          zf[j]? = some (.Any (fields.key Sprintf k) v)) ∧
    (keyvals.length % 2 = 1 →
      ZapAdapter.fields Sprintf keyvals =
        .ret [.Error "odd number of keyvals pairs: %v" keyvals]) ∧
    (∀ s, fields.key Sprintf (.string s) = s) ∧
    (∀ x, (∀ s, x ≠ .string s) → fields.key Sprintf x = Sprintf x) := by
  refine ⟨?_, ?_, fun s => rfl, ?_⟩
  · intro n hlen
    have heven : ¬ keyvals.length % 2 ≠ 0 := by omega
    have hhalf : keyvals.length / 2 = n := by omega
    unfold ZapAdapter.fields
    rw [if_neg heven, hhalf]
    exact fields.loop_fills Sprintf keyvals n hlen n 0 (List.replicate n .zero) (by omega)
      (by omega) (List.length_replicate n _) (fun i hi => absurd hi (by omega))
  · intro hodd
    unfold ZapAdapter.fields
    rw [if_pos (by omega)]
  · intro x hx
    cases x with
    | string s => exact absurd rfl (hx s)
    | int n => rfl
    | bool b => rfl
    | error err => rfl
    | nil => rfl

/-- C24 on the keyvals of a log line with a string key and a key that is not a
string, and on a list of three. -/
theorem fields_pairs_keys_with_values_witness :
    (∃ zf, ZapAdapter.fields Example.sprintf
        [.string "error", .error (.foreign "boom"), .int 7, .bool true] = .ret zf ∧
      zf.length = 2 ∧
      ∀ j, j < 2 → ∃ k v,
        ([.string "error", .error (.foreign "boom"), .int 7, .bool true] :
          List Interface)[2 * j]? = some k ∧
        ([.string "error", .error (.foreign "boom"), .int 7, .bool true] :
          List Interface)[2 * j + 1]? = some v ∧
        zf[j]? = some (.Any (fields.key Example.sprintf k) v)) ∧
    ZapAdapter.fields Example.sprintf [.string "a", .int 1, .string "b"] =
      .ret [.Error "odd number of keyvals pairs: %v" [.string "a", .int 1, .string "b"]] :=
  ⟨(fields_pairs_keys_with_values Example.sprintf
      [.string "error", .error (.foreign "boom"), .int 7, .bool true]).1 2 rfl,
    (fields_pairs_keys_with_values Example.sprintf
      [.string "a", .int 1, .string "b"]).2.1 rfl⟩

end logger

/-- The fields of an ordinary log line, evaluated. -/
theorem logger.fields_example :
    logger.ZapAdapter.fields Example.sprintf
        [.string "error", .error (.foreign "boom"), .int 7, .bool true] =
      .ret [.Any "error" (.error (.foreign "boom")), .Any "7" (.bool true)] := by
  simp [logger.ZapAdapter.fields, logger.fields.loop, logger.fields.key, Example.sprintf]
  rfl

/-! ## Requests on the reset channel -/

namespace activity

/-- The goroutine of `Serve` never makes more passes than it took requests, and
when it is still in its loop afterwards it made one pass for every request. -/
theorem Serve.loop_passes (t : Temporal) (b : Backoff) (reset : Nat) (p : Plugin) (trace : Trace)
    (errCh : List GoError) :
    (Serve.loop t b reset p trace errCh).1 ≤ reset ∧
    ((Serve.loop t b reset p trace errCh).2.1 = .ret .next →
      (Serve.loop t b reset p trace errCh).1 = reset) := by
  induction reset generalizing p trace errCh with
  | zero => exact ⟨Nat.le_refl _, fun _ => rfl⟩
  | succ n ih =>
    unfold Serve.loop
    rcases hi : Serve.iteration t b p trace errCh with ⟨out, p₁, trace₁, errCh₁⟩
    cases out with
    | panic r => exact ⟨by simp, fun h => by simp at h⟩
    | ret l =>
      cases l with
      | exit => exact ⟨by simp, fun h => by simp at h⟩
      | next =>
        have h := ih p₁ trace₁ errCh₁
        simp only []
        exact ⟨by have := h.1; omega, fun hn => by have := h.2 hn; omega⟩

end activity

/-- C21 (amended): resets are serialized and not coalesced. A failure event of
the worker pool, like a call of Reset, sends exactly one request on the reset
channel, and another event sends none. The control loop takes the requests one
after the other, each pass starting in the state the pass before ended in; it
never makes more passes than it took requests, and as long as it stays in its
loop it makes one pass for each request, so k requests that wait while a reset
is in flight make k further passes. In the root plugin every event taken runs
Reset once. -/
theorem reset_requests_one_pass_each (t : activity.Temporal) (b : activity.Backoff)
    (p : activity.Plugin) (trace : Trace) (errCh : List GoError) (reset : Nat)
    (c : roadrunner_temporal.Collaborators) (root : roadrunner_temporal.Plugin)
    (rootTrace : Trace) (rootErrCh : List GoError) (message : String) :
    (∀ payload, (activity.Plugin.poolListener (.EventPoolError payload) reset trace).1 =
      reset + 1) ∧
    (∀ kind, (activity.Plugin.poolListener (.other kind) reset trace).1 = reset) ∧
    activity.Plugin.Reset reset = (none, reset + 1) ∧
    (∀ p₁ trace₁ errCh₁,
      activity.Serve.iteration t b p trace errCh = (.ret .next, p₁, trace₁, errCh₁) →
      activity.Serve.loop t b (reset + 1) p trace errCh =
        ((activity.Serve.loop t b reset p₁ trace₁ errCh₁).1 + 1,
          (activity.Serve.loop t b reset p₁ trace₁ errCh₁).2)) ∧
    (activity.Serve.loop t b reset p trace errCh).1 ≤ reset ∧
    ((activity.Serve.loop t b reset p trace errCh).2.1 = .ret .next →
      (activity.Serve.loop t b reset p trace errCh).1 = reset) ∧
    (roadrunner_temporal.Serve.iteration c root rootTrace rootErrCh (.event message)).2.2.1 =
      (root.Reset c (rootTrace ++
        [.LogDebug "worker stopped, restarting pool and temporal workers"])).2.2 := by
  have hp := activity.Serve.loop_passes t b reset p trace errCh
  refine ⟨fun _ => rfl, fun _ => rfl, rfl, ?_, hp.1, hp.2, ?_⟩
  · intro p₁ trace₁ errCh₁ hi
    show (match activity.Serve.iteration t b p trace errCh with
      | (.ret .next, p₁, trace₁, errCh₁) =>
        match activity.Serve.loop t b reset p₁ trace₁ errCh₁ with
        | (passes, rest) => (passes + 1, rest)
      | (.ret .exit, rest) => (0, .ret .exit, rest)
      | (.panic r, rest) => (1, .panic r, rest)) = _
    rw [hi]
  · unfold roadrunner_temporal.Serve.iteration
    rcases hr : root.Reset c (rootTrace ++
      [.LogDebug "worker stopped, restarting pool and temporal workers"]) with ⟨e, p', tr'⟩
    cases e <;> simp [hr]

/-- C21 (amended) on three failure events with every replacement succeeding:
three requests, three passes. -/
theorem reset_requests_one_pass_each_witness :
    (activity.Plugin.poolListener Example.poolError 2 []).1 = 3 ∧
    (activity.Serve.loop Example.temporal Example.backoff 3 Example.plugin [] []).1 ≤ 3 ∧
    (activity.Serve.loop Example.temporal Example.backoff 3 Example.plugin [] []).1 = 3 :=
  have h := reset_requests_one_pass_each Example.temporal Example.backoff Example.plugin [] []
    3 Example.collaborators (Example.root 0) [] [] ""
  ⟨by decide, h.2.2.2.2.1, h.2.2.2.2.2.1 (by decide)⟩

/-- C21 as stated fails: while the pass for one request is in flight two more
failure events arrive, each leaving a request on the channel; once that pass
has ended the loop makes a pass for each of the two, and each starts a new
worker pool. Two further resets, not at most one. -/
theorem reset_requests_not_coalesced :
    (activity.Plugin.poolListener Example.poolError
      (activity.Plugin.poolListener Example.poolError 0 []).1 []).1 = 2 ∧
    (activity.Serve.loop Example.temporal Example.backoff 1 Example.plugin [] []).1 = 1 ∧
    (activity.Serve.loop Example.temporal Example.backoff 2
      (activity.Serve.loop Example.temporal Example.backoff 1 Example.plugin [] []).2.2.1
      (activity.Serve.loop Example.temporal Example.backoff 1 Example.plugin [] []).2.2.2.1
      []).1 = 2 ∧
    ((activity.Serve.loop Example.temporal Example.backoff 2
      (activity.Serve.loop Example.temporal Example.backoff 1 Example.plugin [] []).2.2.1
      [] []).2.2.2.1.filter
        (fun e => decide (e = Event.LogDebug "replace activity pool"))).length = 2 ∧
    ¬ (2 ≤ 1) := by
  refine ⟨by decide, by decide, by decide, by decide, by decide⟩

end RoadrunnerTemporal
